import Mathlib

/-!
Verification of the GitHub activity-aggregation pipeline of the GitBoss agent
service: a shallow embedding, in Lean, of the pure logic of
`src/tools/get_contributor_activity.py`, `src/tools/list_repo_pr.py` and the
helper functions of `src/app.py` (percent change, date bins, endpoint date
validation), together with theorems settling the stated properties.

Conventions of the embedding:
* Python `str` values that matter only as opaque payloads are Lean `String`s.
* Timestamp strings compared with Python's `<=` are lists of code points
  (`List Nat`) compared lexicographically, exactly as Python compares strings.
* `datetime.date` values that only ever undergo day arithmetic are modelled as
  integers (a day number); calendar dates that get rendered into ISO strings
  are `(year, month, day)` triples with the Gregorian validity predicate.
* Network fetches are parameters of type `Nat → Option α` (or
  `Nat → Except ε α`): `none`/`error` is a `requests` exception, `some`/`ok` a
  2xx response body.  Loops driven by such fetches take explicit fuel; the
  theorems show the fuel is never exhausted under the claims' hypotheses.
-/

/-! ## Percent-change calculator (`percentage_change`, src/app.py lines 674-677)

    def percentage_change(current: int, previous: int) -> str:
        if previous == 0:
            return "+∞%" if current > 0 else "0%"
        return f"{((current - previous) / previous) * 100:.1f}%"

`(current - previous) / previous` on ints is exact as a rational; `:.1f`
rounds to one decimal with ties to even and keeps the sign of a negative
value that rounds to zero. -/
/-- Round a rational to the nearest integer, ties to even (the rounding used
by Python's `format(..., '.1f')` on an exactly representable value). -/
def roundHalfEven (q : ℚ) : ℤ :=
  let f : ℤ := ⌊q⌋
  if q - f < 1/2 then f
  else if 1/2 < q - f then f + 1
  else if Even f then f else f + 1

/-- Python `f"{q:.1f}"`: one digit after the decimal point, ties to even,
a leading `-` whenever the value is negative (also for `-0.0`). -/
def format1f (q : ℚ) : String :=
  let n : ℤ := roundHalfEven (q * 10)
  (if q < 0 then "-" else "")
    ++ toString (n.natAbs / 10) ++ "." ++ toString (n.natAbs % 10)

/-- `percentage_change` from src/app.py. -/
def percentage_change (current previous : ℤ) : String :=
  if previous = 0 then
    (if current > 0 then "+∞%" else "0%")
  else
    format1f (((current : ℚ) - previous) / previous * 100) ++ "%"

/-! ## Time-window binner (`get_date_bins` / `find_bin`, src/app.py)

    def get_date_bins(period: str):
        now = datetime.utcnow().replace(hour=0, minute=0, second=0, microsecond=0)
        bins = []
        if period == "week":
            for i in range(7):
                day = now - timedelta(days=6 - i)
                bins.append(day.date())
        elif period == "month":
            for i in range(4):
                week_start = now - timedelta(days=(21 - i * 7))
                bins.append(week_start.date())
        elif period == "quarter":
            for i in range(12):
                week_start = now - timedelta(days=(77 - i * 7))
                bins.append(week_start.date())
        return bins

Dates here only undergo day arithmetic and comparison, so they are modelled
as integer day numbers; `today` stands for `datetime.utcnow().date()`. -/
/-- `get_date_bins` from src/app.py, with dates as day numbers. -/
def get_date_bins (period : String) (today : ℤ) : List ℤ :=
  if period = "week" then
    (List.range 7).map (fun i => today - (6 - (i : ℤ)))
  else if period = "month" then
    (List.range 4).map (fun i => today - (21 - (i : ℤ) * 7))
  else if period = "quarter" then
    (List.range 12).map (fun i => today - (77 - (i : ℤ) * 7))
  else []

/-- `find_bin` from src/app.py: scan the bins from latest to earliest and
return the first whose start is ≤ the event's date; `none` if the event
predates every bin. -/
def find_bin (bins : List ℤ) (date : ℤ) : Option ℤ :=
  match bins.reverse.find? (fun d => decide (d ≤ date)) with
  | some d => some d
  | none => none

/-! ## Activity aggregator: merged involved-PR set (C1)

src/tools/get_contributor_activity.py lines 208-214:

    involved_pr_map = {item['number']: item for item in reviewed_pr_items}
    for item in commenter_pr_items:
        if item['number'] not in involved_pr_map:
            involved_pr_map[item['number']] = item
    involved_pr_items = list(involved_pr_map.values())

A Python dict is insertion-ordered; assigning to an existing key replaces the
value in place, assigning to a fresh key appends.  A search item is modelled
by its PR `number` plus an opaque payload standing for the rest of the JSON
object. -/
/-- A search-API result item: the PR number plus the rest of the record. -/
structure SearchItem where
  number : Nat
  payload : Nat
deriving DecidableEq

/-- Python `d[k] = v` on an insertion-ordered dict keyed by `.number`:
replace in place if the key is present, append otherwise. -/
def dictSet (m : List SearchItem) (it : SearchItem) : List SearchItem :=
  if m.any (fun x => x.number == it.number) then
    m.map (fun x => if x.number == it.number then it else x)
  else m ++ [it]

/-- `involved_pr_map` built by lines 209-212: the dict comprehension over the
reviewed-by results followed by the insert-if-absent loop over the commenter
results. -/
def involved_pr_map (reviewed_pr_items commenter_pr_items : List SearchItem) :
    List SearchItem :=
  let m := reviewed_pr_items.foldl dictSet []
  commenter_pr_items.foldl
    (fun m it => if m.any (fun x => x.number == it.number) then m else m ++ [it]) m

/-- `involved_pr_items = list(involved_pr_map.values())` (line 214). -/
def involved_pr_items (reviewed_pr_items commenter_pr_items : List SearchItem) :
    List SearchItem :=
  involved_pr_map reviewed_pr_items commenter_pr_items

/-- The insert-if-absent step of lines 210-212. -/
def addIfAbsent (m : List SearchItem) (it : SearchItem) : List SearchItem :=
  if m.any (fun x => x.number == it.number) then m else m ++ [it]

/-! ## Rate-limited fetch client (C5, C6)

src/tools/get_contributor_activity.py lines 19-53:

    MAX_RETRIES = 3
    RETRY_DELAY = 5  # seconds

    def _make_github_api_request(url, params=None):
        retries = 0
        while retries < MAX_RETRIES:
            try:
                response = requests.get(...)
                response.raise_for_status()
                return response
            except requests.exceptions.RequestException as e:
                retries += 1
                if retries >= MAX_RETRIES:
                    raise
                if isinstance(e, HTTPError) and e.response.status_code == 403:
                    reset_time_str = e.response.headers.get('X-RateLimit-Reset')
                    wait_time = RETRY_DELAY * retries * 2
                    if reset_time_str:
                        wait_time = max(0, int(reset_time_str) - int(time.time())) + 5
                    time.sleep(wait_time)
                else:
                    time.sleep(RETRY_DELAY * retries)
        raise Exception("Failed ... after multiple retries.")

The sequence of outcomes of the successive `requests.get` calls is a
parameter `resp : Nat → Except ε ρ` (`resp i` is the outcome of the
`(i+1)`-th attempt); the loop is embedded with the number of attempts made
instrumented. -/
def MAX_RETRIES : Nat := 3

def RETRY_DELAY : Int := 5

/-- Outcome of `_make_github_api_request`: a returned response, a re-raised
request exception (`raise` at `retries >= MAX_RETRIES`), or the fall-through
`raise Exception(...)` after the `while` guard fails (line 53). -/
inductive ReqOutcome (ε ρ : Type) where
  | ok (r : ρ)
  | err (e : ε)
  | exhausted
deriving DecidableEq

/-- The retry loop of `_make_github_api_request`, instrumented with the number
of `requests.get` calls performed. -/
def requestLoop {ε ρ : Type} (resp : Nat → Except ε ρ) (maxRetries : Nat) :
    Nat → Nat → ReqOutcome ε ρ × Nat := fun retries attempts =>
  if _h : retries < maxRetries then
    match resp attempts with
    | Except.ok r => (ReqOutcome.ok r, attempts + 1)
    | Except.error e =>
      if retries + 1 ≥ maxRetries then (ReqOutcome.err e, attempts + 1)
      else requestLoop resp maxRetries (retries + 1) (attempts + 1)
  else (ReqOutcome.exhausted, attempts)
termination_by retries _ => maxRetries - retries
decreasing_by omega

/-- `_make_github_api_request` from src/tools/get_contributor_activity.py,
abstracted over the outcomes of the successive HTTP attempts. -/
def make_github_api_request {ε ρ : Type} (resp : Nat → Except ε ρ) :
    ReqOutcome ε ρ × Nat :=
  requestLoop resp MAX_RETRIES 0 0

/-- The sleep duration chosen by the `except` branch before a retry
(lines 42-52): on a 403 with an `X-RateLimit-Reset` header the wait is
`max(0, reset - now) + 5`; on a 403 without the header it is the default
`RETRY_DELAY * retries * 2`; otherwise it is `RETRY_DELAY * retries`. -/
def retryWaitTime (is403 : Bool) (rateLimitReset : Option Int) (now : Int)
    (retries : Nat) : Int :=
  if is403 then
    match rateLimitReset with
    | some reset => max 0 (reset - now) + 5
    | none => RETRY_DELAY * retries * 2
  else RETRY_DELAY * retries

/-! ## Paginator (C4)

src/tools/get_contributor_activity.py lines 159-181:

    def _search_github_paginated(base_query):
        results = []
        search_page = 1
        while True:
            search_params = {..., "per_page": 100, "page": search_page}
            try:
                response = _make_github_api_request(search_url, params=search_params)
                data = response.json()
                items = data.get("items", [])
                if not items: break
                results.extend(items)
                if len(items) < 100: break
                search_page += 1
            except Exception as e_search:
                break
        return results

`fetch page` is the items list of the page-`page` request (`none` when
`_make_github_api_request` raises).  The loop is embedded with fuel, the list
of requested page numbers instrumented, and a flag telling whether the loop
exited through one of its `break`s (rather than by running out of fuel). -/
/-- The `while True` loop of `_search_github_paginated`: state is the next
page number, the accumulated results and the pages requested so far. -/
def searchPagesLoop {α : Type} (fetch : Nat → Option (List α)) :
    Nat → Nat → List α → List Nat → List α × List Nat × Bool
  | 0, _, results, requested => (results, requested, false)
  | fuel + 1, page, results, requested =>
    match fetch page with
    | none => (results, requested ++ [page], true)
    | some items =>
      if items.isEmpty then (results, requested ++ [page], true)
      else if items.length < 100 then (results ++ items, requested ++ [page], true)
      else searchPagesLoop fetch fuel (page + 1) (results ++ items) (requested ++ [page])

/-- `_search_github_paginated`, started at page 1 with empty accumulators. -/
def search_github_paginated {α : Type} (fetch : Nat → Option (List α)) (fuel : Nat) :
    List α × List Nat × Bool :=
  searchPagesLoop fetch fuel 1 [] []

/-! ## Activity aggregator: commits phase (C10, C2)

src/tools/get_contributor_activity.py lines 100-155.  The per-page fetch
(`_make_github_api_request` + `.json()`) is `pagesFetch : Nat → Option (List
CommitItem)` and the per-commit detail fetch is `detailFetch : String →
Option CommitDetail` (keyed by the commit item's `url`; `none` models the
caught exception of either `try` block).  `if not commits_data: break` and the
`len(commits_data) < 100` page-size check are embedded verbatim; the
`unique_files_set` Python set is an insertion-ordered duplicate-free list and
`sorted(...)` is `List.mergeSort` with `≤` on strings. -/
/-- One element of the commit-list response (the fields lines 140-147 read). -/
structure CommitItem where
  sha : String
  message : String
  html_url : String
  date : String
  url : String
deriving DecidableEq

/-- The parts of the commit-detail response used by lines 132-135:
`stats.additions`, `stats.deletions`, and the filenames under `files`. -/
structure CommitDetail where
  additions : Nat
  deletions : Nat
  files : List String
deriving DecidableEq

/-- One record appended to `commits_list` (lines 140-148). -/
structure CommitRecord where
  sha : String
  message : String
  html_url : String
  date : String
  additions : Nat
  deletions : Nat
  changed_files : List String
deriving DecidableEq

/-- The mutable aggregation state threaded through the commits loop. -/
structure CommitsState where
  total_lines_changed : Nat
  unique_files : List String
  commits_list : List CommitRecord
deriving DecidableEq

/-- `unique_files_set.add(f)`: a Python set insert, on an insertion-ordered
duplicate-free list. -/
def setAdd (s : List String) (f : String) : List String :=
  if f ∈ s then s else s ++ [f]

/-- The body of `for commit_item in commits_data` (lines 124-148): fetch the
commit detail; on success accumulate lines changed and changed files, on a
caught failure keep `additions = deletions = 0` and no files; either way
append one record to `commits_list`. -/
def processCommitItem (detailFetch : String → Option CommitDetail)
    (st : CommitsState) (item : CommitItem) : CommitsState :=
  match detailFetch item.url with
  | some det =>
    { total_lines_changed := st.total_lines_changed + (det.additions + det.deletions)
      unique_files := det.files.foldl setAdd st.unique_files
      commits_list := st.commits_list
        ++ [⟨item.sha, item.message, item.html_url, item.date,
             det.additions, det.deletions, det.files⟩] }
  | none =>
    { st with commits_list := st.commits_list
        ++ [⟨item.sha, item.message, item.html_url, item.date, 0, 0, []⟩] }

/-- The `while True` page loop of the commits phase (lines 104-152): a failed
page fetch is caught and `break`s (returning the state built so far, with no
error), an empty page `break`s, a partial page is processed then `break`s. -/
def commitsPagesLoop (pagesFetch : Nat → Option (List CommitItem))
    (detailFetch : String → Option CommitDetail) :
    Nat → Nat → CommitsState → CommitsState
  | 0, _, st => st
  | fuel + 1, page, st =>
    match pagesFetch page with
    | none => st
    | some commits_data =>
      if commits_data.isEmpty then st
      else
        let st2 := commits_data.foldl (processCommitItem detailFetch) st
        if commits_data.length < 100 then st2
        else commitsPagesLoop pagesFetch detailFetch fuel (page + 1) st2

/-- The commit-related fields of the returned `activity` dict
(lines 86-98 initial values, 153-155 final assignment). -/
structure CommitsPhaseResult where
  total_commits : Nat
  commits : List CommitRecord
  total_lines_changed : Nat
  unique_files_changed_in_commits : List String
deriving DecidableEq

/-- The whole commits phase: run the page loop from page 1 on the empty
state, then `activity["commits"] = commits_list`,
`activity["total_commits"] = len(commits_list)`,
`activity["unique_files_changed_in_commits"] = sorted(list(unique_files_set))`. -/
def commitsPhase (pagesFetch : Nat → Option (List CommitItem))
    (detailFetch : String → Option CommitDetail) (fuel : Nat) :
    CommitsPhaseResult :=
  let st := commitsPagesLoop pagesFetch detailFetch fuel 1 ⟨0, [], []⟩
  { total_commits := st.commits_list.length
    commits := st.commits_list
    total_lines_changed := st.total_lines_changed
    unique_files_changed_in_commits := st.unique_files.mergeSort }

/-! ## ISO-timestamp window filter (C3)

src/tools/get_contributor_activity.py lines 77-81 build the window bounds:

    start_datetime_iso_commits = datetime.strptime(start_date_str, "%Y-%m-%d")
        .replace(hour=0, minute=0, second=0, tzinfo=timezone.utc).isoformat()
    end_datetime_iso_commits = (datetime.strptime(end_date_str, "%Y-%m-%d")
        + timedelta(days=1)).replace(hour=0, minute=0, second=0,
        tzinfo=timezone.utc).isoformat()

so the bounds are the strings `"YYYY-MM-DDT00:00:00+00:00"` for the start
date and for the day after the end date.  Line 238 filters reviews with a
Python string comparison against GitHub timestamps `"YYYY-MM-DDTHH:MM:SSZ"`:

    if start_datetime_iso_commits <= review["submitted_at"] <= end_datetime_iso_commits:

Python compares strings lexicographically by code point, so strings are
embedded as `List Nat` of code points (45 `-`, 58 `:`, 84 `T`, 43 `+`,
90 `Z`, 48..57 digits), with zero-padded decimal fields exactly as
`isoformat` and GitHub produce them. -/
/-- Python string comparison (lexicographic by code point). -/
def pyStrCmp : List Nat → List Nat → Ordering
  | [], [] => Ordering.eq
  | [], _ :: _ => Ordering.lt
  | _ :: _, [] => Ordering.gt
  | a :: as, b :: bs =>
    match compare a b with
    | Ordering.eq => pyStrCmp as bs
    | o => o

/-- Python `s <= t` on strings. -/
def pyStrLe (a b : List Nat) : Bool :=
  pyStrCmp a b ≠ Ordering.gt

/-- A two-digit zero-padded decimal field, as code points. -/
def pad2 (n : Nat) : List Nat :=
  [48 + n / 10, 48 + n % 10]

/-- A four-digit zero-padded decimal field, as code points. -/
def pad4 (n : Nat) : List Nat :=
  pad2 (n / 100) ++ pad2 (n % 100)

/-- A calendar date `(year, month, day)`. -/
structure Date where
  y : Nat
  m : Nat
  d : Nat
deriving DecidableEq

/-- Gregorian leap year, as Python's `datetime` implements it. -/
def isLeap (y : Nat) : Bool :=
  (y % 4 == 0 && y % 100 != 0) || y % 400 == 0

/-- Days in a month of the proleptic Gregorian calendar. -/
def daysInMonth (y m : Nat) : Nat :=
  if m = 2 then (if isLeap y then 29 else 28)
  else if m = 4 ∨ m = 6 ∨ m = 9 ∨ m = 11 then 30
  else 31

/-- A calendar date `datetime` accepts (year 1..9999). -/
def Date.Valid (dt : Date) : Prop :=
  1 ≤ dt.m ∧ dt.m ≤ 12 ∧ 1 ≤ dt.d ∧ dt.d ≤ daysInMonth dt.y dt.m
  ∧ 1 ≤ dt.y ∧ dt.y < 10000

instance : DecidablePred Date.Valid := fun dt => by
  unfold Date.Valid
  infer_instance

/-- `date + timedelta(days=1)`. -/
def nextDay (dt : Date) : Date :=
  if dt.d < daysInMonth dt.y dt.m then ⟨dt.y, dt.m, dt.d + 1⟩
  else if dt.m < 12 then ⟨dt.y, dt.m + 1, 1⟩
  else ⟨dt.y + 1, 1, 1⟩

/-- Chronological order on calendar dates (year, then month, then day). -/
def Date.le (a b : Date) : Prop :=
  a.y < b.y ∨ (a.y = b.y ∧ (a.m < b.m ∨ (a.m = b.m ∧ a.d ≤ b.d)))

instance : DecidableRel Date.le := fun a b => by
  unfold Date.le
  infer_instance

/-- Strict chronological order on calendar dates. -/
def Date.lt (a b : Date) : Prop :=
  a.y < b.y ∨ (a.y = b.y ∧ (a.m < b.m ∨ (a.m = b.m ∧ a.d < b.d)))

instance : DecidableRel Date.lt := fun a b => by
  unfold Date.lt
  infer_instance

/-- A second-precision UTC timestamp. -/
structure Timestamp where
  date : Date
  hh : Nat
  mi : Nat
  ss : Nat
deriving DecidableEq

/-- A well-formed timestamp: valid date, `hh < 24`, `mi < 60`, `ss < 60`. -/
def Timestamp.Valid (t : Timestamp) : Prop :=
  t.date.Valid ∧ t.hh < 24 ∧ t.mi < 60 ∧ t.ss < 60

instance : DecidablePred Timestamp.Valid := fun t => by
  unfold Timestamp.Valid
  infer_instance

/-- The 19-character core `YYYY-MM-DDTHH:MM:SS` shared by both timestamp
renderings. -/
def isoCore (dt : Date) (hh mi ss : Nat) : List Nat :=
  pad4 dt.y ++ ([45] ++ (pad2 dt.m ++ ([45] ++ (pad2 dt.d ++ ([84]
    ++ (pad2 hh ++ ([58] ++ (pad2 mi ++ ([58] ++ pad2 ss)))))))))

/-- Python `datetime(..., tzinfo=timezone.utc).isoformat()` at midnight:
`"YYYY-MM-DDT00:00:00+00:00"`. -/
def isoformatUTCMidnight (dt : Date) : List Nat :=
  isoCore dt 0 0 0 ++ [43, 48, 48, 58, 48, 48]

/-- A GitHub API timestamp `"YYYY-MM-DDTHH:MM:SSZ"`. -/
def isoZ (t : Timestamp) : List Nat :=
  isoCore t.date t.hh t.mi t.ss ++ [90]

/-- `start_datetime_iso_commits` (line 78). -/
def start_datetime_iso_commits (startDate : Date) : List Nat :=
  isoformatUTCMidnight startDate

/-- `end_datetime_iso_commits` (line 81): midnight of the day after the end
date. -/
def end_datetime_iso_commits (endDate : Date) : List Nat :=
  isoformatUTCMidnight (nextDay endDate)

/-- The review time filter of line 238:
`start_datetime_iso_commits <= review["submitted_at"] <= end_datetime_iso_commits`. -/
def reviewInWindow (startDate endDate : Date) (submitted_at : List Nat) : Bool :=
  pyStrLe (start_datetime_iso_commits startDate) submitted_at
    && pyStrLe submitted_at (end_datetime_iso_commits endDate)

/-! ## Per-PR review/comment enrichment (C2)

src/tools/get_contributor_activity.py lines 216-288: the loop over the merged
involved-PR set.  For each PR it paginates `/pulls/{n}/reviews` and
`/pulls/{n}/comments` (each inner `while True` `break`s on a caught fetch
failure, keeping what was already collected), filters by actor and window,
and appends a `reviews_and_review_comments` entry only when at least one
activity survived.  `fetchReviews pr page` / `fetchComments pr page` are the
page fetches for one PR (`none` models the caught exception). -/
/-- One element of a `/pulls/{n}/reviews` page (fields read by lines
235-245). -/
structure ReviewItem where
  user : String
  state : String
  body : String
  submitted_at : List Nat
  html_url : String
deriving DecidableEq

/-- One element of a `/pulls/{n}/comments` page (fields read by lines
263-274). -/
structure ReviewCommentItem where
  user : String
  body : String
  created_at : List Nat
  html_url : String
  path : String
  line : Nat
deriving DecidableEq

/-- One entry of `pr_activity_details`: a review (lines 239-245) or an inline
review comment (lines 267-274). -/
inductive PRActivityDetail where
  | review (state body : String) (submitted_at : List Nat) (html_url : String)
  | review_comment (body : String) (created_at : List Nat) (html_url : String)
      (path : String) (line : Nat)
deriving DecidableEq

/-- The fields of an involved-PR search item read by lines 282-287. -/
structure InvolvedPR where
  number : Nat
  title : String
  html_url : String
  body : String
deriving DecidableEq

/-- One entry of `activity["reviews_and_review_comments"]` (lines 282-288). -/
structure PREntry where
  pr_number : Nat
  pr_title : String
  pr_html_url : String
  pr_description : String
  activities : List PRActivityDetail
deriving DecidableEq

/-- The reviews pagination loop for one PR (lines 228-250): filter to the
contributor's reviews inside the window (the line-238 string comparison) and
`break` on a caught failure, keeping what was collected so far. -/
def reviewsLoop (fetch : Nat → Option (List ReviewItem)) (username : String)
    (startDate endDate : Date) :
    Nat → Nat → List PRActivityDetail → List PRActivityDetail
  | 0, _, acc => acc
  | fuel + 1, page, acc =>
    match fetch page with
    | none => acc
    | some data =>
      if data.isEmpty then acc
      else
        let acc2 := acc ++ (data.filter (fun r =>
            r.user == username && reviewInWindow startDate endDate r.submitted_at)).map
          (fun r => PRActivityDetail.review r.state r.body r.submitted_at r.html_url)
        if data.length < 100 then acc2
        else reviewsLoop fetch username startDate endDate fuel (page + 1) acc2

/-- The review-comments pagination loop for one PR (lines 253-279): the code
filters by actor and by `created_at <= end_datetime_iso_commits` only (the
lower bound is delegated to the request's `since` parameter), and `break`s on
a caught failure. -/
def reviewCommentsLoop (fetch : Nat → Option (List ReviewCommentItem))
    (username : String) (endDate : Date) :
    Nat → Nat → List PRActivityDetail → List PRActivityDetail
  | 0, _, acc => acc
  | fuel + 1, page, acc =>
    match fetch page with
    | none => acc
    | some data =>
      if data.isEmpty then acc
      else
        let acc2 := acc ++ (data.filter (fun c =>
            c.user == username && pyStrLe c.created_at (end_datetime_iso_commits endDate))).map
          (fun c => PRActivityDetail.review_comment c.body c.created_at c.html_url c.path c.line)
        if data.length < 100 then acc2
        else reviewCommentsLoop fetch username endDate fuel (page + 1) acc2

/-- `pr_activity_details` for one PR: the reviews loop then the
review-comments loop, appending to the same list (lines 224-279). -/
def collectPRActivityDetails (fetchReviews : Nat → Nat → Option (List ReviewItem))
    (fetchComments : Nat → Nat → Option (List ReviewCommentItem))
    (username : String) (startDate endDate : Date) (pr : Nat) (fuel : Nat) :
    List PRActivityDetail :=
  reviewCommentsLoop (fetchComments pr) username endDate fuel 1
    (reviewsLoop (fetchReviews pr) username startDate endDate fuel 1 [])

/-- The outer loop over the merged involved-PR set (lines 216-288), with the
`processed_pr_for_reviews_comments` membership check and the
append-only-if-nonempty rule of line 281. -/
def reviewsPhaseLoop (fetchReviews : Nat → Nat → Option (List ReviewItem))
    (fetchComments : Nat → Nat → Option (List ReviewCommentItem))
    (username : String) (startDate endDate : Date) (fuel : Nat) :
    List InvolvedPR → List Nat → List PREntry → List PREntry
  | [], _, acc => acc
  | item :: items, processed, acc =>
    if item.number ∈ processed then
      reviewsPhaseLoop fetchReviews fetchComments username startDate endDate fuel
        items processed acc
    else
      reviewsPhaseLoop fetchReviews fetchComments username startDate endDate fuel
        items (processed ++ [item.number])
        (if (collectPRActivityDetails fetchReviews fetchComments username
              startDate endDate item.number fuel).isEmpty then acc
         else acc ++ [⟨item.number, item.title, item.html_url, item.body,
            collectPRActivityDetails fetchReviews fetchComments username
              startDate endDate item.number fuel⟩])

/-- `activity["reviews_and_review_comments"]` built from the involved-PR
items. -/
def reviews_and_review_comments (fetchReviews : Nat → Nat → Option (List ReviewItem))
    (fetchComments : Nat → Nat → Option (List ReviewCommentItem))
    (username : String) (startDate endDate : Date) (fuel : Nat)
    (items : List InvolvedPR) : List PREntry :=
  reviewsPhaseLoop fetchReviews fetchComments username startDate endDate fuel items [] []

/-- A commit-list page of exactly 100 items, used to drive the pagination
loop past page 1. -/
def examplePage : List CommitItem :=
  (List.range 100).map (fun i => ⟨toString i, "m", "h", "d", toString i⟩)

/-! ## Endpoint date-window validation (C9)

src/app.py.  `list_repository_issues_endpoint` (lines 1031-1036) parses both
regex-checked `YYYY-MM-DD` parameters and raises
`ValueError("End date must be after start date.")` when
`strptime(end) < strptime(start)`, which the handler's
`except ValueError` turns into HTTP 400 — all before `get_repo_issues` is
called.  `get_contributor_activity_endpoint` (lines 548-567) performs no such
comparison: it calls `fetch_contributor_activity` directly and only maps a
raised `ValueError` to 400 and any other exception to 500 after the fact.
Each endpoint is embedded with the date window already parsed, a `fetch`
parameter standing for the tool call that performs the outbound network
requests, and the returned pair instrumented with whether `fetch` was
invoked. -/
/-- Outcome of a tool call: a value, a raised `ValueError`, or another
exception. -/
inductive PyResult (ρ : Type) where
  | ok (r : ρ)
  | valueError (msg : String)
  | exn (msg : String)
deriving DecidableEq

/-- `list_repository_issues_endpoint`: reject `end < start` with HTTP 400
before fetching; otherwise call the tool and map a `ValueError` to 400, any
other exception to 500.  The second component records whether the tool (and
so the network) was reached. -/
def list_repository_issues_endpoint {ρ : Type} (startD endD : Date)
    (fetchIssues : Unit → PyResult ρ) : Except Nat ρ × Bool :=
  if Date.lt endD startD then (Except.error 400, false)
  else
    match fetchIssues () with
    | PyResult.ok r => (Except.ok r, true)
    | PyResult.valueError _ => (Except.error 400, true)
    | PyResult.exn _ => (Except.error 500, true)

/-- `get_contributor_activity_endpoint`: no date-order check — the tool is
always called, and only its own exceptions are mapped to HTTP statuses. -/
def get_contributor_activity_endpoint {ρ : Type} (startD endD : Date)
    (fetchActivity : Unit → PyResult ρ) : Except Nat ρ × Bool :=
  match fetchActivity () with
  | PyResult.ok r => (Except.ok r, true)
  | PyResult.valueError _ => (Except.error 400, true)
  | PyResult.exn _ => (Except.error 500, true)

/-! ## Theorems -/
/-- `roundHalfEven` is the identity on integers. -/
theorem roundHalfEven_intCast (z : ℤ) : roundHalfEven (z : ℚ) = z := by
  unfold roundHalfEven
  rw [Int.floor_intCast]
  norm_num

/-- Evaluation of `format1f` at a nonnegative multiple of `1/10`. -/
theorem format1f_nonneg_eval (q : ℚ) (n : ℤ) (h : q * 10 = (n : ℚ)) (h0 : 0 ≤ q) :
    format1f q = toString (n.natAbs / 10) ++ "." ++ toString (n.natAbs % 10) := by
  unfold format1f
  rw [h, roundHalfEven_intCast]
  simp [not_lt.mpr h0]

/-- Claim C7: `percentage_change` on `previous = 0` returns `"+∞%"` for positive
`current` and `"0%"` for `current = 0`; otherwise it returns
`((current - previous) / previous) * 100` formatted to one decimal place with
a trailing `"%"`; in particular `percentage_change 150 100 = "50.0%"`,
`percentage_change 0 0 = "0%"` and `percentage_change 5 0 = "+∞%"`. -/
theorem percentage_change_spec (current previous : ℤ) :
    (previous = 0 → 0 < current → percentage_change current previous = "+∞%")
    ∧ (previous = 0 → current = 0 → percentage_change current previous = "0%")
    ∧ (previous ≠ 0 →
        percentage_change current previous
          = format1f (((current : ℚ) - previous) / previous * 100) ++ "%"
        ∧ ∃ intPart fracDigit : String,
            percentage_change current previous
              = intPart ++ "." ++ fracDigit ++ "%" ∧ fracDigit.length = 1)
    ∧ percentage_change 150 100 = "50.0%"
    ∧ percentage_change 0 0 = "0%"
    ∧ percentage_change 5 0 = "+∞%" := by
  have h150 : percentage_change 150 100 = "50.0%" := by
    rw [show percentage_change 150 100
          = format1f ((((150 : ℤ) : ℚ) - ((100 : ℤ) : ℚ)) / ((100 : ℤ) : ℚ) * 100) ++ "%" from by
        simp [percentage_change]]
    rw [format1f_nonneg_eval _ 500 (by norm_num) (by norm_num)]
    rfl
  refine ⟨?_, ?_, ?_, h150, by simp [percentage_change], by simp [percentage_change]⟩
  · intro h0 hc
    simp [percentage_change, h0, hc]
  · intro h0 hc
    simp [percentage_change, h0, hc]
  · intro hp
    refine ⟨by simp [percentage_change, hp], ?_⟩
    refine ⟨(if (((current : ℚ) - previous) / previous * 100) < 0 then "-" else "")
        ++ toString ((roundHalfEven ((((current : ℚ) - previous) / previous * 100) * 10)).natAbs / 10),
      toString ((roundHalfEven ((((current : ℚ) - previous) / previous * 100) * 10)).natAbs % 10), ?_, ?_⟩
    · simp [percentage_change, hp, format1f, String.append_assoc]
    · have hlt : (roundHalfEven ((((current : ℚ) - previous) / previous * 100) * 10)).natAbs % 10 < 10 :=
        Nat.mod_lt _ (by norm_num)
      interval_cases h : (roundHalfEven ((((current : ℚ) - previous) / previous * 100) * 10)).natAbs % 10 <;> rfl

/-- Witness for claim C7: the hypothesis-bearing conjuncts of
`percentage_change_spec`, discharged at concrete inputs. -/
theorem percentage_change_spec_witness :
    percentage_change 5 0 = "+∞%" ∧ percentage_change 0 0 = "0%"
    ∧ percentage_change 150 100
        = format1f ((((150 : ℤ) : ℚ) - (100 : ℤ)) / (100 : ℤ) * 100) ++ "%" :=
  ⟨(percentage_change_spec 5 0).1 rfl (by norm_num),
   ((percentage_change_spec 0 0).2.1 rfl rfl),
   ((percentage_change_spec 150 100).2.2.1 (by norm_num)).1⟩

/-- Claim C8: for every `today`, `get_date_bins "week"` returns exactly 7 bins
that are consecutive calendar days ending today; `get_date_bins "month"`
returns exactly 4 bins 7 days apart ending today; `get_date_bins "quarter"`
returns exactly 12 bins 7 days apart ending today; in every case the bins are
strictly increasing and the last bin is today. -/
theorem get_date_bins_spec (today : ℤ) :
    ((get_date_bins "week" today).length = 7
      ∧ (get_date_bins "week" today).Chain' (fun a b => b = a + 1)
      ∧ (get_date_bins "week" today).getLast? = some today)
    ∧ ((get_date_bins "month" today).length = 4
      ∧ (get_date_bins "month" today).Chain' (fun a b => b = a + 7)
      ∧ (get_date_bins "month" today).getLast? = some today)
    ∧ ((get_date_bins "quarter" today).length = 12
      ∧ (get_date_bins "quarter" today).Chain' (fun a b => b = a + 7)
      ∧ (get_date_bins "quarter" today).getLast? = some today)
    ∧ (get_date_bins "week" today).Sorted (· < ·)
    ∧ (get_date_bins "month" today).Sorted (· < ·)
    ∧ (get_date_bins "quarter" today).Sorted (· < ·) := by
  have hw : get_date_bins "week" today
      = [today - 6, today - 5, today - 4, today - 3, today - 2, today - 1, today] := by
    simp [get_date_bins, List.range_succ]
  have hm : get_date_bins "month" today
      = [today - 21, today - 14, today - 7, today] := by
    simp [get_date_bins, List.range_succ]
  have hq : get_date_bins "quarter" today
      = [today - 77, today - 70, today - 63, today - 56, today - 49, today - 42,
         today - 35, today - 28, today - 21, today - 14, today - 7, today] := by
    simp [get_date_bins, List.range_succ]
  refine ⟨⟨?_, ?_, ?_⟩, ⟨?_, ?_, ?_⟩, ⟨?_, ?_, ?_⟩, ?_, ?_, ?_⟩ <;>
    simp [hw, hm, hq, List.chain'_cons, List.sorted_cons] <;> omega

/-- The numbers of a dict are unchanged by an in-place replace and extended by
an append. -/
theorem dictSet_map_number (m : List SearchItem) (it : SearchItem) :
    (dictSet m it).map SearchItem.number
      = if it.number ∈ m.map SearchItem.number then m.map SearchItem.number
        else m.map SearchItem.number ++ [it.number] := by
  unfold dictSet
  by_cases h : it.number ∈ m.map SearchItem.number
  · have hany : m.any (fun x => x.number == it.number) = true := by
      rcases List.mem_map.mp h with ⟨x, hx, hxn⟩
      exact List.any_eq_true.mpr ⟨x, hx, by simp [hxn]⟩
    simp only [hany, if_true, h, List.map_map]
    apply List.map_congr_left
    intro x _
    by_cases hx : x.number = it.number <;> simp [hx]
  · have hany : m.any (fun x => x.number == it.number) = false := by
      simp only [List.any_eq_false]
      intro x hx
      simp only [beq_iff_eq]
      intro hxn
      exact h (List.mem_map.mpr ⟨x, hx, hxn⟩)
    simp [hany, h]

/-- Every element of `dictSet m it` comes from `m` or is `it`. -/
theorem mem_dictSet (m : List SearchItem) (it x : SearchItem)
    (hx : x ∈ dictSet m it) : x ∈ m ∨ x = it := by
  unfold dictSet at hx
  by_cases hany : m.any (fun y => y.number == it.number) = true
  · simp only [hany, if_true] at hx
    rcases List.mem_map.mp hx with ⟨y, hy, hyx⟩
    by_cases hyn : y.number = it.number
    · simp only [hyn, beq_self_eq_true, if_true] at hyx
      exact Or.inr hyx.symm
    · simp only [beq_iff_eq, hyn, if_false] at hyx
      exact Or.inl (hyx ▸ hy)
  · simp [hany] at hx
    exact hx

/-- `k in involved_pr_map` (the Python membership test) agrees with membership
in the list of numbers. -/
theorem any_number_beq (m : List SearchItem) (k : Nat) :
    (m.any (fun x => x.number == k)) = true ↔ k ∈ m.map SearchItem.number := by
  rw [List.any_eq_true]
  constructor
  · rintro ⟨x, hx, hbe⟩
    exact List.mem_map.mpr ⟨x, hx, by simpa using hbe⟩
  · intro h
    rcases List.mem_map.mp h with ⟨x, hx, hxk⟩
    exact ⟨x, hx, by simp [hxk]⟩

/-- Membership in the numbers of `dictSet m it`. -/
theorem mem_dictSet_map_number (m : List SearchItem) (it : SearchItem) (n : Nat) :
    n ∈ (dictSet m it).map SearchItem.number
      ↔ n ∈ m.map SearchItem.number ∨ n = it.number := by
  rw [dictSet_map_number]
  by_cases h : it.number ∈ m.map SearchItem.number
  · simp only [h, if_true]
    constructor
    · exact Or.inl
    · rintro (hn | rfl)
      · exact hn
      · exact h
  · simp [h]

/-- `dictSet` preserves distinctness of the numbers. -/
theorem nodup_dictSet (m : List SearchItem) (it : SearchItem)
    (hnd : (m.map SearchItem.number).Nodup) :
    ((dictSet m it).map SearchItem.number).Nodup := by
  rw [dictSet_map_number]
  by_cases h : it.number ∈ m.map SearchItem.number
  · simpa [h] using hnd
  · simp [h, List.nodup_append, hnd]

/-- Invariants of the dict comprehension `{item['number']: item for item in r}`
run from an arbitrary starting dict. -/
theorem foldl_dictSet_facts (r : List SearchItem) :
    ∀ m : List SearchItem,
      (∀ n, n ∈ (r.foldl dictSet m).map SearchItem.number
          ↔ n ∈ m.map SearchItem.number ∨ n ∈ r.map SearchItem.number)
      ∧ ((m.map SearchItem.number).Nodup →
          ((r.foldl dictSet m).map SearchItem.number).Nodup)
      ∧ (∀ x ∈ r.foldl dictSet m, x ∈ m ∨ x ∈ r) := by
  induction r with
  | nil => intro m; simp
  | cons it r ih =>
    intro m
    obtain ⟨ihMem, ihNd, ihEl⟩ := ih (dictSet m it)
    refine ⟨?_, ?_, ?_⟩
    · intro n
      rw [List.foldl_cons, ihMem n, mem_dictSet_map_number]
      simp only [List.map_cons, List.mem_cons]
      tauto
    · intro hnd
      exact ihNd (nodup_dictSet m it hnd)
    · intro x hx
      rcases ihEl x hx with hx' | hx'
      · rcases mem_dictSet m it x hx' with h | h
        · exact Or.inl h
        · exact Or.inr (h ▸ List.mem_cons_self it r)
      · exact Or.inr (List.mem_cons_of_mem it hx')

/-- Invariants of the insert-if-absent loop over the commenter results: it
only appends, the appended items carry fresh numbers, and distinctness of
numbers is preserved. -/
theorem foldl_addIfAbsent_facts (c : List SearchItem) :
    ∀ m : List SearchItem,
      ∃ t : List SearchItem,
        c.foldl addIfAbsent m = m ++ t
        ∧ (∀ x ∈ t, x ∈ c ∧ x.number ∉ m.map SearchItem.number)
        ∧ (∀ n, n ∈ (c.foldl addIfAbsent m).map SearchItem.number
            ↔ n ∈ m.map SearchItem.number ∨ n ∈ c.map SearchItem.number)
        ∧ ((m.map SearchItem.number).Nodup →
            ((c.foldl addIfAbsent m).map SearchItem.number).Nodup) := by
  induction c with
  | nil => intro m; exact ⟨[], by simp, by simp, by simp, fun h => by simpa using h⟩
  | cons it c ih =>
    intro m
    by_cases hp : it.number ∈ m.map SearchItem.number
    · have hstep : addIfAbsent m it = m := by
        unfold addIfAbsent
        rw [if_pos ((any_number_beq m it.number).mpr hp)]
      obtain ⟨t, ht, htel, htmem, htnd⟩ := ih m
      refine ⟨t, ?_, ?_, ?_, ?_⟩
      · rw [List.foldl_cons, hstep]; exact ht
      · intro x hx
        exact ⟨List.mem_cons_of_mem it (htel x hx).1, (htel x hx).2⟩
      · intro n
        rw [List.foldl_cons, hstep, htmem n]
        simp only [List.map_cons, List.mem_cons]
        constructor
        · tauto
        · rintro (h | rfl | h)
          · exact Or.inl h
          · exact Or.inl hp
          · exact Or.inr h
      · intro hnd
        rw [List.foldl_cons, hstep]
        exact htnd hnd
    · have hstep : addIfAbsent m it = m ++ [it] := by
        unfold addIfAbsent
        rw [if_neg (fun h => hp ((any_number_beq m it.number).mp h))]
      obtain ⟨t, ht, htel, htmem, htnd⟩ := ih (m ++ [it])
      refine ⟨it :: t, ?_, ?_, ?_, ?_⟩
      · rw [List.foldl_cons, hstep, ht, List.append_cons, List.append_assoc]
        simp
      · intro x hx
        rcases List.mem_cons.mp hx with rfl | hx'
        · exact ⟨List.mem_cons_self x c, hp⟩
        · refine ⟨List.mem_cons_of_mem it (htel x hx').1, fun hn => ?_⟩
          exact (htel x hx').2 (by simp [hn])
      · intro n
        rw [List.foldl_cons, hstep, htmem n]
        simp only [List.map_append, List.map_cons, List.map_nil, List.mem_append,
          List.mem_cons, List.mem_singleton, List.not_mem_nil, or_false]
        tauto
      · intro hnd
        rw [List.foldl_cons, hstep]
        refine htnd ?_
        simp [List.nodup_append, hnd, hp]

/-- Claim C1: the merged involved-PR set of lines 208-214 contains each PR
number of the two search-result lists exactly once: its numbers are distinct,
a number appears in it iff it appears in the reviewed-by list or in the
commenter list (so a PR present in both appears once, with count 1), and every
merged entry whose number occurs in the reviewed-by list is a record taken
from the reviewed-by list. -/
theorem involved_pr_items_dedup (reviewed_prs commenter_prs : List SearchItem) :
    ((involved_pr_items reviewed_prs commenter_prs).map SearchItem.number).Nodup
    ∧ (∀ n, n ∈ (involved_pr_items reviewed_prs commenter_prs).map SearchItem.number
        ↔ n ∈ reviewed_prs.map SearchItem.number ∨ n ∈ commenter_prs.map SearchItem.number)
    ∧ (∀ n, n ∈ reviewed_prs.map SearchItem.number ∨ n ∈ commenter_prs.map SearchItem.number →
        ((involved_pr_items reviewed_prs commenter_prs).map SearchItem.number).count n = 1)
    ∧ (∀ x ∈ involved_pr_items reviewed_prs commenter_prs,
        x.number ∈ reviewed_prs.map SearchItem.number → x ∈ reviewed_prs) := by
  obtain ⟨h1mem, h1nd, h1el⟩ := foldl_dictSet_facts reviewed_prs []
  obtain ⟨t, ht, htel, h2mem, h2nd⟩ :=
    foldl_addIfAbsent_facts commenter_prs (reviewed_prs.foldl dictSet [])
  have hunfold : involved_pr_items reviewed_prs commenter_prs
      = commenter_prs.foldl addIfAbsent (reviewed_prs.foldl dictSet []) := by
    rfl
  have hm1mem : ∀ n, n ∈ (reviewed_prs.foldl dictSet []).map SearchItem.number
      ↔ n ∈ reviewed_prs.map SearchItem.number := by
    intro n
    rw [h1mem n]
    simp
  have hnd : ((involved_pr_items reviewed_prs commenter_prs).map SearchItem.number).Nodup := by
    rw [hunfold]
    exact h2nd (h1nd (by simp))
  have hmem : ∀ n, n ∈ (involved_pr_items reviewed_prs commenter_prs).map SearchItem.number
      ↔ n ∈ reviewed_prs.map SearchItem.number ∨ n ∈ commenter_prs.map SearchItem.number := by
    intro n
    rw [hunfold, h2mem n, hm1mem n]
  refine ⟨hnd, hmem, ?_, ?_⟩
  · intro n hn
    exact List.count_eq_one_of_mem hnd ((hmem n).mpr hn)
  · intro x hx hxr
    rw [hunfold, ht] at hx
    rcases List.mem_append.mp hx with hx' | hx'
    · rcases h1el x hx' with h | h
      · exact absurd h (List.not_mem_nil x)
      · exact h
    · exact absurd ((hm1mem x.number).mpr hxr) (htel x hx').2

/-- Witness for claim C1: the merge applied to concrete overlapping search results:
PR 2 appears in both lists, occurs once in the merged set, and the merged
entry for a reviewed PR number is the reviewed-by record. -/
theorem involved_pr_items_dedup_witness :
    ((involved_pr_items [⟨1, 10⟩, ⟨2, 20⟩] [⟨2, 99⟩, ⟨3, 30⟩]).map
        SearchItem.number).count 2 = 1
    ∧ (⟨2, 20⟩ : SearchItem) ∈ ([⟨1, 10⟩, ⟨2, 20⟩] : List SearchItem) := by
  have h := involved_pr_items_dedup [⟨1, 10⟩, ⟨2, 20⟩] [⟨2, 99⟩, ⟨3, 30⟩]
  exact ⟨h.2.2.1 2 (Or.inl (by decide)), h.2.2.2 ⟨2, 20⟩ (by decide) (by decide)⟩

/-- Claim C5: `_make_github_api_request` performs at most `MAX_RETRIES = 3`
attempts: it never reaches the fall-through raise, after three failed
attempts it re-raises the third error having made exactly 3 requests, and a
first success at attempt `i` (the earlier attempts having failed) is returned
immediately after `i + 1` requests. -/
theorem make_github_api_request_spec {ε ρ : Type} (resp : Nat → Except ε ρ) :
    (make_github_api_request resp).2 ≤ 3
    ∧ (make_github_api_request resp).1 ≠ ReqOutcome.exhausted
    ∧ (∀ e0 e1 e2, resp 0 = Except.error e0 → resp 1 = Except.error e1 →
        resp 2 = Except.error e2 →
        make_github_api_request resp = (ReqOutcome.err e2, 3))
    ∧ (∀ i r, i < 3 → resp i = Except.ok r →
        (∀ j, j < i → ∃ e, resp j = Except.error e) →
        make_github_api_request resp = (ReqOutcome.ok r, i + 1)) := by
  have stepOk : ∀ (k a : Nat) (r : ρ), k < 3 → resp a = Except.ok r →
      requestLoop resp 3 k a = (ReqOutcome.ok r, a + 1) := by
    intro k a r hk hr
    rw [requestLoop, dif_pos hk, hr]
  have step0 : ∀ e, resp 0 = Except.error e →
      requestLoop resp 3 0 0 = requestLoop resp 3 1 1 := by
    intro e he
    rw [requestLoop, dif_pos (by omega), he]
    rfl
  have step1 : ∀ e, resp 1 = Except.error e →
      requestLoop resp 3 1 1 = requestLoop resp 3 2 2 := by
    intro e he
    rw [requestLoop, dif_pos (by omega), he]
    rfl
  have step2 : ∀ e, resp 2 = Except.error e →
      requestLoop resp 3 2 2 = (ReqOutcome.err e, 3) := by
    intro e he
    rw [requestLoop, dif_pos (by omega), he]
    rfl
  have hdef : make_github_api_request resp = requestLoop resp 3 0 0 := rfl
  cases h0 : resp 0 with
  | ok r0 =>
    have hv : make_github_api_request resp = (ReqOutcome.ok r0, 1) := by
      rw [hdef]; exact stepOk 0 0 r0 (by omega) h0
    refine ⟨by rw [hv]; try norm_num, by rw [hv]; simp, ?_, ?_⟩
    · intro f0 f1 f2 hf0 _ _
      exact absurd hf0 (by simp)
    · intro i r hi hok hprev
      have hi3 : i = 0 ∨ i = 1 ∨ i = 2 := by omega
      rcases hi3 with rfl | rfl | rfl
      · have : r0 = r := by simpa using h0.symm.trans hok
        rw [hv, this]
      · obtain ⟨e, he⟩ := hprev 0 (by omega)
        rw [h0] at he
        exact absurd he (by simp)
      · obtain ⟨e, he⟩ := hprev 0 (by omega)
        rw [h0] at he
        exact absurd he (by simp)
  | error e0 =>
    have hv01 : make_github_api_request resp = requestLoop resp 3 1 1 := by
      rw [hdef]; exact step0 e0 h0
    cases h1 : resp 1 with
    | ok r1 =>
      have hv : make_github_api_request resp = (ReqOutcome.ok r1, 2) := by
        rw [hv01]; exact stepOk 1 1 r1 (by omega) h1
      refine ⟨by rw [hv]; try norm_num, by rw [hv]; simp, ?_, ?_⟩
      · intro f0 f1 f2 _ hf1 _
        exact absurd hf1 (by simp)
      · intro i r hi hok hprev
        have hi3 : i = 0 ∨ i = 1 ∨ i = 2 := by omega
        rcases hi3 with rfl | rfl | rfl
        · rw [h0] at hok
          exact absurd hok (by simp)
        · have : r1 = r := by simpa using h1.symm.trans hok
          rw [hv, this]
        · obtain ⟨e, he⟩ := hprev 1 (by omega)
          rw [h1] at he
          exact absurd he (by simp)
    | error e1 =>
      have hv12 : make_github_api_request resp = requestLoop resp 3 2 2 := by
        rw [hv01]; exact step1 e1 h1
      cases h2 : resp 2 with
      | ok r2 =>
        have hv : make_github_api_request resp = (ReqOutcome.ok r2, 3) := by
          rw [hv12]; exact stepOk 2 2 r2 (by omega) h2
        refine ⟨by rw [hv]; try norm_num, by rw [hv]; simp, ?_, ?_⟩
        · intro f0 f1 f2 _ _ hf2
          exact absurd hf2 (by simp)
        · intro i r hi hok hprev
          have hi3 : i = 0 ∨ i = 1 ∨ i = 2 := by omega
          rcases hi3 with rfl | rfl | rfl
          · rw [h0] at hok
            exact absurd hok (by simp)
          · rw [h1] at hok
            exact absurd hok (by simp)
          · have : r2 = r := by simpa using h2.symm.trans hok
            rw [hv, this]
      | error e2 =>
        have hv : make_github_api_request resp = (ReqOutcome.err e2, 3) := by
          rw [hv12]; exact step2 e2 h2
        refine ⟨by rw [hv]; try norm_num, by rw [hv]; simp, ?_, ?_⟩
        · intro f0 f1 f2 _ _ hf2
          have : e2 = f2 := by simpa using hf2
          rw [hv, this]
        · intro i r hi hok hprev
          have hi3 : i = 0 ∨ i = 1 ∨ i = 2 := by omega
          rcases hi3 with rfl | rfl | rfl
          · rw [h0] at hok
            exact absurd hok (by simp)
          · rw [h1] at hok
            exact absurd hok (by simp)
          · rw [h2] at hok
            exact absurd hok (by simp)

/-- Witness for claim C5: the retry loop run against a response sequence whose
three attempts all fail, and against one that succeeds on the second
attempt. -/
theorem make_github_api_request_spec_witness :
    make_github_api_request (fun _ => (Except.error 7 : Except Nat Nat))
      = (ReqOutcome.err 7, 3)
    ∧ make_github_api_request
        (fun i => if i = 0 then (Except.error 7 : Except Nat Nat) else Except.ok 42)
      = (ReqOutcome.ok 42, 2) :=
  ⟨(make_github_api_request_spec (fun _ => (Except.error 7 : Except Nat Nat))).2.2.1
      7 7 7 rfl rfl rfl,
   (make_github_api_request_spec
        (fun i => if i = 0 then (Except.error 7 : Except Nat Nat) else Except.ok 42)).2.2.2
      1 42 (by omega) rfl (fun j hj => ⟨7, by interval_cases j; rfl⟩)⟩

/-- Claim C6: on a 403 response carrying an `X-RateLimit-Reset` value the wait
before the retry is `max(0, resetAt - now) + 5` — a fixed buffer of 5 > 0
seconds — so it is at least `resetAt - now`; for a reset timestamp 2 seconds
in the future the wait is 7 ≥ 2 seconds; on a 403 without the header the wait
falls back to `RETRY_DELAY * retries * 2`, a function of the attempt count. -/
theorem retryWaitTime_spec (reset now : Int) (retries : Nat) :
    retryWaitTime true (some reset) now retries = max 0 (reset - now) + 5
    ∧ (0 : Int) < 5
    ∧ reset - now ≤ retryWaitTime true (some reset) now retries
    ∧ (reset = now + 2 →
        retryWaitTime true (some reset) now retries = 7
        ∧ 2 ≤ retryWaitTime true (some reset) now retries)
    ∧ retryWaitTime true none now retries = RETRY_DELAY * retries * 2 := by
  have heval : retryWaitTime true (some reset) now retries = max 0 (reset - now) + 5 := by
    simp [retryWaitTime]
  refine ⟨heval, by norm_num, ?_, ?_, by simp [retryWaitTime]⟩
  · rw [heval]
    have := le_max_right (0 : Int) (reset - now)
    omega
  · intro h2
    rw [heval, h2]
    norm_num

/-- Witness for claim C6: `retryWaitTime_spec` at a reset timestamp 2 seconds in the
future. -/
theorem retryWaitTime_spec_witness :
    retryWaitTime true (some 1002) 1000 1 = 7 ∧ 2 ≤ retryWaitTime true (some 1002) 1000 1 :=
  (retryWaitTime_spec 1002 1000 1).2.2.2.1 (by norm_num)

/-- One unfolding of the loop on a successful fetch. -/
theorem searchPagesLoop_some {α : Type} (fetch : Nat → Option (List α))
    (fuel page : Nat) (acc items : List α) (req : List Nat)
    (h : fetch page = some items) :
    searchPagesLoop fetch (fuel + 1) page acc req
      = (if items.isEmpty then (acc, req ++ [page], true)
         else if items.length < 100 then (acc ++ items, req ++ [page], true)
         else searchPagesLoop fetch fuel (page + 1) (acc ++ items) (req ++ [page])) := by
  rw [searchPagesLoop, h]

/-- One unfolding of the loop on a failing fetch. -/
theorem searchPagesLoop_none {α : Type} (fetch : Nat → Option (List α))
    (fuel page : Nat) (acc : List α) (req : List Nat)
    (h : fetch page = none) :
    searchPagesLoop fetch (fuel + 1) page acc req = (acc, req ++ [page], true) := by
  rw [searchPagesLoop, h]

/-- Running the pagination loop over `fullPages.length` pages of exactly 100
items followed by one partial page: it accumulates the concatenation, requests
exactly the consecutive page numbers, and exits through a `break`. -/
theorem searchPagesLoop_run {α : Type} (fullPages : List (List α))
    (fetch : Nat → Option (List α)) (lastPage : List α) :
    ∀ (start fuel : Nat) (acc : List α) (req : List Nat),
      (∀ i (hi : i < fullPages.length),
        fetch (start + i) = some (fullPages.get ⟨i, hi⟩)
        ∧ (fullPages.get ⟨i, hi⟩).length = 100) →
      fetch (start + fullPages.length) = some lastPage →
      lastPage.length < 100 →
      fullPages.length + 1 ≤ fuel →
      searchPagesLoop fetch fuel start acc req
        = (acc ++ fullPages.flatten ++ lastPage,
           req ++ List.range' start (fullPages.length + 1), true) := by
  induction fullPages with
  | nil =>
    intro start fuel acc req _ hpart hlen hfuel
    obtain ⟨fuel', rfl⟩ : ∃ f, fuel = f + 1 := ⟨fuel - 1, by omega⟩
    simp only [List.length_nil, Nat.add_zero] at hpart
    rw [searchPagesLoop_some fetch fuel' start acc lastPage req hpart]
    by_cases hemp : lastPage.isEmpty
    · rw [if_pos hemp]
      rw [List.isEmpty_iff] at hemp
      simp [hemp, List.range'_one]
    · rw [if_neg hemp, if_pos hlen]
      simp [List.range'_one]
  | cons p fullPages ih =>
    intro start fuel acc req hfull hpart hlen hfuel
    obtain ⟨fuel', rfl⟩ : ∃ f, fuel = f + 1 := ⟨fuel - 1, by omega⟩
    have hp : fetch start = some p := by
      have := (hfull 0 (by simp)).1
      simpa using this
    have hp100 : p.length = 100 := by
      have := (hfull 0 (by simp)).2
      simpa using this
    rw [searchPagesLoop_some fetch fuel' start acc p req hp]
    rw [if_neg (by
      simp only [List.isEmpty_iff, ← List.length_pos_iff_ne_nil]
      omega)]
    rw [if_neg (by omega)]
    have hrec := ih (start + 1) fuel' (acc ++ p) (req ++ [start])
      (fun i hi => by
        have := hfull (i + 1) (by simpa using Nat.succ_lt_succ hi)
        simpa [Nat.add_comm, Nat.add_assoc, Nat.add_left_comm] using this)
      (by
        have heq : start + 1 + fullPages.length = start + (p :: fullPages).length := by
          simp [Nat.add_comm, Nat.add_assoc, Nat.add_left_comm]
        rw [heq]
        exact hpart)
      hlen (by simpa using Nat.le_of_succ_le_succ hfuel)
    rw [hrec]
    simp only [List.flatten_cons, List.length_cons, List.append_assoc]
    rw [List.range'_succ]
    simp [List.range'_succ]

/-- Claim C4: `_search_github_paginated` on a source of some full pages (100
items each) followed by one partial page returns exactly the concatenation of
all pages' items in page order, requests exactly pages `1..k+1` (none after
the partial page), and terminates through a `break` — the result is the same
for every fuel bound `≥ k+1`.  Moreover the loop stops immediately (after the
current request, accumulating nothing further) when a page comes back empty
or when the fetch layer raises an unrecoverable error. -/
theorem search_github_paginated_spec {α : Type} (fetch : Nat → Option (List α))
    (fullPages : List (List α)) (lastPage : List α) (fuel : Nat) :
    ((∀ i (hi : i < fullPages.length),
        fetch (1 + i) = some (fullPages.get ⟨i, hi⟩)
        ∧ (fullPages.get ⟨i, hi⟩).length = 100) →
      fetch (1 + fullPages.length) = some lastPage →
      lastPage.length < 100 →
      fullPages.length + 1 ≤ fuel →
      search_github_paginated fetch fuel
        = (fullPages.flatten ++ lastPage, List.range' 1 (fullPages.length + 1), true))
    ∧ (∀ (g : Nat → Option (List α)) (fuel2 page : Nat) (acc : List α) (req : List Nat),
        g page = some [] →
        searchPagesLoop g (fuel2 + 1) page acc req = (acc, req ++ [page], true))
    ∧ (∀ (g : Nat → Option (List α)) (fuel2 page : Nat) (acc : List α) (req : List Nat),
        g page = none →
        searchPagesLoop g (fuel2 + 1) page acc req = (acc, req ++ [page], true)) := by
  refine ⟨?_, ?_, ?_⟩
  · intro hfull hpart hlen hfuel
    have hrun := searchPagesLoop_run fullPages fetch lastPage 1 fuel [] [] hfull hpart hlen hfuel
    rw [search_github_paginated, hrun]
    simp
  · intro g fuel2 page acc req hempty
    rw [searchPagesLoop_some g fuel2 page acc [] req hempty]
    rfl
  · intro g fuel2 page acc req hnone
    exact searchPagesLoop_none g fuel2 page acc req hnone

/-- Witness for claim C4: the paginator run against a concrete source: one full page
of 100 items followed by a partial page of 2, with fuel 5; and the immediate
stops on an empty page and on a failing fetch. -/
theorem search_github_paginated_spec_witness :
    search_github_paginated
        (fun p => if p = 1 then some (List.range 100) else
          if p = 2 then some [1000, 1001] else none) 5
      = (List.range 100 ++ [1000, 1001], [1, 2], true)
    ∧ searchPagesLoop (fun _ => some ([] : List Nat)) 4 1 [] [] = ([], [1], true)
    ∧ searchPagesLoop (fun _ => (none : Option (List Nat))) 4 1 [] [] = ([], [1], true) := by
  have h := search_github_paginated_spec
    (fun p => if p = 1 then some (List.range 100) else
      if p = 2 then some [1000, 1001] else none)
    [List.range 100] [1000, 1001] 5
  refine ⟨?_, h.2.1 (fun _ => some []) 3 1 [] [] rfl, h.2.2 (fun _ => none) 3 1 [] [] rfl⟩
  have hrun := h.1 (fun i hi => by
      have hi0 : i = 0 := by simpa using hi
      subst hi0
      exact ⟨rfl, by simp⟩)
    rfl (by norm_num) (by norm_num)
  rw [hrun]
  simp [List.range'_succ, List.range'_one]

/-- `setAdd` preserves distinctness. -/
theorem setAdd_nodup (s : List String) (f : String) (h : s.Nodup) :
    (setAdd s f).Nodup := by
  unfold setAdd
  by_cases hf : f ∈ s
  · simpa [hf]
  · simp [hf, List.nodup_append, h]

/-- Folding `setAdd` preserves distinctness. -/
theorem foldl_setAdd_nodup (files : List String) :
    ∀ s : List String, s.Nodup → (files.foldl setAdd s).Nodup := by
  induction files with
  | nil => intro s h; simpa using h
  | cons f files ih =>
    intro s h
    exact ih (setAdd s f) (setAdd_nodup s f h)

/-- `processCommitItem` preserves distinctness of the file set. -/
theorem processCommitItem_unique_nodup (detailFetch : String → Option CommitDetail)
    (st : CommitsState) (item : CommitItem) (h : st.unique_files.Nodup) :
    (processCommitItem detailFetch st item).unique_files.Nodup := by
  unfold processCommitItem
  cases detailFetch item.url with
  | some det => exact foldl_setAdd_nodup det.files st.unique_files h
  | none => simpa using h

/-- Folding `processCommitItem` over a page preserves distinctness of the
file set. -/
theorem foldl_processCommitItem_unique_nodup
    (detailFetch : String → Option CommitDetail) (data : List CommitItem) :
    ∀ st : CommitsState, st.unique_files.Nodup →
      (data.foldl (processCommitItem detailFetch) st).unique_files.Nodup := by
  induction data with
  | nil => intro st h; simpa using h
  | cons item data ih =>
    intro st h
    exact ih (processCommitItem detailFetch st item)
      (processCommitItem_unique_nodup detailFetch st item h)

/-- The commits page loop preserves distinctness of the file set. -/
theorem commitsPagesLoop_unique_nodup (pagesFetch : Nat → Option (List CommitItem))
    (detailFetch : String → Option CommitDetail) (fuel : Nat) :
    ∀ (page : Nat) (st : CommitsState), st.unique_files.Nodup →
      (commitsPagesLoop pagesFetch detailFetch fuel page st).unique_files.Nodup := by
  induction fuel with
  | zero => intro page st h; simpa [commitsPagesLoop] using h
  | succ fuel ih =>
    intro page st h
    rw [commitsPagesLoop]
    cases pagesFetch page with
    | none => simpa using h
    | some data =>
      by_cases hemp : data.isEmpty
      · simpa [hemp] using h
      · have hfold := foldl_processCommitItem_unique_nodup detailFetch data st h
        by_cases hlen : data.length < 100
        · simpa [hemp, hlen] using hfold
        · simpa [hemp, hlen] using ih (page + 1) _ hfold

/-- Folding a page appends exactly one commit record per item. -/
theorem foldl_processCommitItem_length
    (detailFetch : String → Option CommitDetail) (data : List CommitItem) :
    ∀ st : CommitsState,
      (data.foldl (processCommitItem detailFetch) st).commits_list.length
        = st.commits_list.length + data.length := by
  induction data with
  | nil => intro st; simp
  | cons item data ih =>
    intro st
    rw [List.foldl_cons, ih]
    have : (processCommitItem detailFetch st item).commits_list.length
        = st.commits_list.length + 1 := by
      unfold processCommitItem
      cases detailFetch item.url <;> simp
    rw [this]
    simp only [List.length_cons]
    omega

/-- Claim C10: for every behaviour of the page and commit-detail fetches, the
commits phase returns `unique_files_changed_in_commits` sorted with no
duplicate paths, and `total_commits` equal to the length of `commits` — and a
commit whose detail fetch failed still contributes one record, with
`additions = 0`, `deletions = 0` and no changed files, leaving the line and
file accumulators untouched. -/
theorem commitsPhase_invariants (pagesFetch : Nat → Option (List CommitItem))
    (detailFetch : String → Option CommitDetail) (fuel : Nat) :
    (commitsPhase pagesFetch detailFetch fuel).unique_files_changed_in_commits.Sorted (· ≤ ·)
    ∧ (commitsPhase pagesFetch detailFetch fuel).unique_files_changed_in_commits.Nodup
    ∧ (commitsPhase pagesFetch detailFetch fuel).total_commits
        = (commitsPhase pagesFetch detailFetch fuel).commits.length
    ∧ (∀ (d : String → Option CommitDetail) (st : CommitsState) (item : CommitItem),
        d item.url = none →
        processCommitItem d st item
          = { st with commits_list := st.commits_list
              ++ [⟨item.sha, item.message, item.html_url, item.date, 0, 0, []⟩] }) := by
  have hnd : (commitsPagesLoop pagesFetch detailFetch fuel 1 ⟨0, [], []⟩).unique_files.Nodup :=
    commitsPagesLoop_unique_nodup pagesFetch detailFetch fuel 1 ⟨0, [], []⟩ (by simp)
  refine ⟨?_, ?_, rfl, ?_⟩
  · exact List.sorted_mergeSort' _
  · exact (List.mergeSort_perm _ _).nodup_iff.mpr hnd
  · intro d st item hd
    unfold processCommitItem
    rw [hd]

/-- Witness for claim C10: the failed-detail conjunct of `commitsPhase_invariants`,
discharged at a concrete commit item whose detail fetch fails. -/
theorem commitsPhase_invariants_witness :
    processCommitItem (fun _ => none) ⟨3, ["a.py"], []⟩ ⟨"sha1", "msg", "u", "d", "url1"⟩
      = { total_lines_changed := 3, unique_files := ["a.py"],
          commits_list := [⟨"sha1", "msg", "u", "d", 0, 0, []⟩] } :=
  (commitsPhase_invariants (fun _ => none) (fun _ => none) 0).2.2.2
    (fun _ => none) ⟨3, ["a.py"], []⟩ ⟨"sha1", "msg", "u", "d", "url1"⟩ rfl

/-- `Ordering.then` escapes `.gt` exactly when its first argument decides or
its first argument ties and the second escapes. -/
theorem then_ne_gt (o p : Ordering) :
    o.then p ≠ Ordering.gt ↔ (o = Ordering.lt ∨ (o = Ordering.eq ∧ p ≠ Ordering.gt)) := by
  cases o <;> simp [Ordering.then]

/-- `Ordering.then` is `.lt` exactly when its first argument is `.lt` or ties
and the second is `.lt`. -/
theorem then_eq_lt (o p : Ordering) :
    o.then p = Ordering.lt ↔ (o = Ordering.lt ∨ (o = Ordering.eq ∧ p = Ordering.lt)) := by
  cases o <;> simp [Ordering.then]

/-- Lexicographic comparison splits across a length-aligned append. -/
theorem pyStrCmp_append (as : List Nat) :
    ∀ (bs xs ys : List Nat), as.length = bs.length →
      pyStrCmp (as ++ xs) (bs ++ ys) = (pyStrCmp as bs).then (pyStrCmp xs ys) := by
  induction as with
  | nil =>
    intro bs xs ys hlen
    have : bs = [] := List.length_eq_zero.mp hlen.symm
    subst this
    simp [pyStrCmp, Ordering.then]
  | cons a as ih =>
    intro bs xs ys hlen
    cases bs with
    | nil => simp at hlen
    | cons b bs =>
      simp only [List.cons_append, pyStrCmp]
      cases h : compare a b with
      | eq => simpa using ih bs xs ys (by simpa using hlen)
      | lt => simp [Ordering.then]
      | gt => simp [Ordering.then]

/-- Comparison of strings with the same first code point. -/
theorem pyStrCmp_cons_same (c : Nat) (xs ys : List Nat) :
    pyStrCmp (c :: xs) (c :: ys) = pyStrCmp xs ys := by
  simp [pyStrCmp, Nat.compare_eq_eq.mpr rfl]

/-- `compare` is invariant under a common additive shift. -/
theorem compare_add_left (k a b : Nat) : compare (k + a) (k + b) = compare a b := by
  rcases Nat.lt_trichotomy a b with h | h | h
  · rw [Nat.compare_eq_lt.mpr h, Nat.compare_eq_lt.mpr (by omega)]
  · subst h
    rw [Nat.compare_eq_eq.mpr rfl, Nat.compare_eq_eq.mpr rfl]
  · rw [Nat.compare_eq_gt.mpr h, Nat.compare_eq_gt.mpr (by omega)]

/-- Two-digit zero-padded fields compare like the numbers they denote. -/
theorem pyStrCmp_pad2 (a b : Nat) (ha : a < 100) (hb : b < 100) :
    pyStrCmp (pad2 a) (pad2 b) = compare a b := by
  have h2 : ∀ x1 x2 y1 y2 : Nat,
      pyStrCmp [x1, x2] [y1, y2] = (compare x1 y1).then (compare x2 y2) := by
    intro x1 x2 y1 y2
    cases h1 : compare x1 y1 <;> cases h2 : compare x2 y2 <;>
      simp [pyStrCmp, h1, h2, Ordering.then]
  unfold pad2
  rw [h2, compare_add_left, compare_add_left]
  rcases Nat.lt_trichotomy a b with h | h | h
  · rw [Nat.compare_eq_lt.mpr h]
    have hsplit : a / 10 < b / 10 ∨ (a / 10 = b / 10 ∧ a % 10 < b % 10) := by omega
    rcases hsplit with h1 | ⟨h1, h2⟩
    · rw [Nat.compare_eq_lt.mpr h1]
      rfl
    · rw [Nat.compare_eq_eq.mpr h1, Nat.compare_eq_lt.mpr h2]
      rfl
  · subst h
    rw [Nat.compare_eq_eq.mpr rfl, Nat.compare_eq_eq.mpr rfl, Nat.compare_eq_eq.mpr rfl]
    rfl
  · rw [Nat.compare_eq_gt.mpr h]
    have hsplit : b / 10 < a / 10 ∨ (a / 10 = b / 10 ∧ b % 10 < a % 10) := by omega
    rcases hsplit with h1 | ⟨h1, h2⟩
    · rw [Nat.compare_eq_gt.mpr h1]
      rfl
    · rw [Nat.compare_eq_eq.mpr h1, Nat.compare_eq_gt.mpr h2]
      rfl

/-- Four-digit zero-padded fields compare like the numbers they denote. -/
theorem pyStrCmp_pad4 (a b : Nat) (ha : a < 10000) (hb : b < 10000) :
    pyStrCmp (pad4 a) (pad4 b) = compare a b := by
  unfold pad4
  rw [pyStrCmp_append (pad2 (a / 100)) (pad2 (b / 100)) _ _ rfl,
    pyStrCmp_pad2 _ _ (by omega) (by omega), pyStrCmp_pad2 _ _ (by omega) (by omega)]
  rcases Nat.lt_trichotomy a b with h | h | h
  · rw [Nat.compare_eq_lt.mpr h]
    have hsplit : a / 100 < b / 100 ∨ (a / 100 = b / 100 ∧ a % 100 < b % 100) := by omega
    rcases hsplit with h1 | ⟨h1, h2⟩
    · rw [Nat.compare_eq_lt.mpr h1]
      rfl
    · rw [Nat.compare_eq_eq.mpr h1, Nat.compare_eq_lt.mpr h2]
      rfl
  · subst h
    rw [Nat.compare_eq_eq.mpr rfl, Nat.compare_eq_eq.mpr rfl, Nat.compare_eq_eq.mpr rfl]
    rfl
  · rw [Nat.compare_eq_gt.mpr h]
    have hsplit : b / 100 < a / 100 ∨ (a / 100 = b / 100 ∧ b % 100 < a % 100) := by omega
    rcases hsplit with h1 | ⟨h1, h2⟩
    · rw [Nat.compare_eq_gt.mpr h1]
      rfl
    · rw [Nat.compare_eq_eq.mpr h1, Nat.compare_eq_gt.mpr h2]
      rfl

/-- The 19-character cores compare field by field, year first. -/
theorem pyStrCmp_isoCore (d1 d2 : Date) (a1 b1 c1 a2 b2 c2 : Nat)
    (hy1 : d1.y < 10000) (hy2 : d2.y < 10000)
    (hm1 : d1.m < 100) (hm2 : d2.m < 100) (hd1 : d1.d < 100) (hd2 : d2.d < 100)
    (ha1 : a1 < 100) (ha2 : a2 < 100) (hb1 : b1 < 100) (hb2 : b2 < 100)
    (hc1 : c1 < 100) (hc2 : c2 < 100) :
    pyStrCmp (isoCore d1 a1 b1 c1) (isoCore d2 a2 b2 c2)
      = (compare d1.y d2.y).then ((compare d1.m d2.m).then ((compare d1.d d2.d).then
          ((compare a1 a2).then ((compare b1 b2).then (compare c1 c2))))) := by
  unfold isoCore
  simp only [List.singleton_append]
  rw [pyStrCmp_append (pad4 d1.y) (pad4 d2.y), pyStrCmp_pad4 _ _ hy1 hy2,
    pyStrCmp_cons_same,
    pyStrCmp_append (pad2 d1.m) (pad2 d2.m), pyStrCmp_pad2 _ _ hm1 hm2,
    pyStrCmp_cons_same,
    pyStrCmp_append (pad2 d1.d) (pad2 d2.d), pyStrCmp_pad2 _ _ hd1 hd2,
    pyStrCmp_cons_same,
    pyStrCmp_append (pad2 a1) (pad2 a2), pyStrCmp_pad2 _ _ ha1 ha2,
    pyStrCmp_cons_same,
    pyStrCmp_append (pad2 b1) (pad2 b2), pyStrCmp_pad2 _ _ hb1 hb2,
    pyStrCmp_cons_same,
    pyStrCmp_pad2 _ _ hc1 hc2]
  all_goals rfl

/-- A midnight bound compared against a `Z`-suffixed event timestamp is `≤`
exactly when the bound's date is `≤` the event's date (any moment of the
bound's own day compares above the bound, because `'+' < 'Z'`). -/
theorem pyStrLe_bound_event (s : Date) (t : Timestamp)
    (hsy : s.y < 10000) (hsm : s.m < 100) (hsd : s.d < 100)
    (hty : t.date.y < 10000) (htm : t.date.m < 100) (htd : t.date.d < 100)
    (hth : t.hh < 100) (hti : t.mi < 100) (hts : t.ss < 100) :
    pyStrLe (isoformatUTCMidnight s) (isoZ t) = true ↔ Date.le s t.date := by
  unfold isoformatUTCMidnight isoZ pyStrLe
  rw [pyStrCmp_append (isoCore s 0 0 0) (isoCore t.date t.hh t.mi t.ss) _ _ rfl,
    pyStrCmp_isoCore s t.date 0 0 0 t.hh t.mi t.ss hsy hty hsm htm hsd htd
      (by norm_num) hth (by norm_num) hti (by norm_num) hts]
  have hsuf : pyStrCmp [43, 48, 48, 58, 48, 48] [90] = Ordering.lt := rfl
  rw [hsuf]
  have hlt : ∀ o : Ordering, (o.then Ordering.lt ≠ Ordering.gt) ↔ o ≠ Ordering.gt := by
    intro o
    cases o <;> simp [Ordering.then]
  simp only [decide_eq_true_eq, hlt, then_ne_gt, then_eq_lt,
    Nat.compare_eq_lt, Nat.compare_eq_eq, Nat.compare_ne_gt]
  unfold Date.le
  omega

/-- A `Z`-suffixed event timestamp compared against a midnight bound is `≤`
exactly when the event's date is strictly before the bound's date (a `Z`
timestamp at the bound's own midnight compares above the bound). -/
theorem pyStrLe_event_bound (n : Date) (t : Timestamp)
    (hny : n.y < 10000) (hnm : n.m < 100) (hnd : n.d < 100)
    (hty : t.date.y < 10000) (htm : t.date.m < 100) (htd : t.date.d < 100)
    (hth : t.hh < 100) (hti : t.mi < 100) (hts : t.ss < 100) :
    pyStrLe (isoZ t) (isoformatUTCMidnight n) = true ↔ Date.lt t.date n := by
  unfold isoformatUTCMidnight isoZ pyStrLe
  rw [pyStrCmp_append (isoCore t.date t.hh t.mi t.ss) (isoCore n 0 0 0) _ _ rfl,
    pyStrCmp_isoCore t.date n t.hh t.mi t.ss 0 0 0 hty hny htm hnm htd hnd
      hth (by norm_num) hti (by norm_num) hts (by norm_num)]
  have hsuf : pyStrCmp [90] [43, 48, 48, 58, 48, 48] = Ordering.gt := rfl
  rw [hsuf]
  have hgt : ∀ o : Ordering, (o.then Ordering.gt ≠ Ordering.gt) ↔ o = Ordering.lt := by
    intro o
    cases o <;> simp [Ordering.then]
  simp only [decide_eq_true_eq, hgt, then_eq_lt,
    Nat.compare_eq_lt, Nat.compare_eq_eq]
  unfold Date.lt
  omega

/-- No Gregorian month has more than 31 days. -/
theorem daysInMonth_le_31 (y m : Nat) : daysInMonth y m ≤ 31 := by
  unfold daysInMonth
  split_ifs <;> norm_num

/-- The day after a valid date has in-range fields. -/
theorem nextDay_fields (e : Date) (he : e.Valid) :
    (nextDay e).m < 100 ∧ (nextDay e).d < 100 ∧ (nextDay e).y ≤ e.y + 1 := by
  obtain ⟨hm1, hm2, hd1, hd2, hy1, hy2⟩ := he
  have h31 := daysInMonth_le_31 e.y e.m
  unfold nextDay
  split_ifs <;> simp <;> omega

/-- For valid dates, being strictly before the day after `e` is being on or
before `e`. -/
theorem date_lt_nextDay_iff (t e : Date) (ht : t.Valid) (he : e.Valid) :
    Date.lt t (nextDay e) ↔ Date.le t e := by
  obtain ⟨htm1, htm2, htd1, htd2, hty1, hty2⟩ := ht
  obtain ⟨hem1, hem2, hed1, hed2, hey1, hey2⟩ := he
  have ht31 : t.d ≤ 31 := le_trans htd2 (daysInMonth_le_31 t.y t.m)
  unfold nextDay
  by_cases h1 : e.d < daysInMonth e.y e.m
  · rw [if_pos h1]
    unfold Date.lt Date.le
    dsimp only
    omega
  · by_cases h2 : e.m < 12
    · rw [if_neg h1, if_pos h2]
      unfold Date.lt Date.le
      dsimp only
      by_cases hc : t.y = e.y ∧ t.m = e.m
      · have hdm : daysInMonth t.y t.m = daysInMonth e.y e.m := by
          rw [hc.1, hc.2]
        omega
      · rw [not_and_or] at hc
        rcases hc with hc | hc <;> omega
    · rw [if_neg h1, if_neg h2]
      unfold Date.lt Date.le
      dsimp only
      have hm12 : e.m = 12 := by omega
      have hd31 : daysInMonth e.y e.m = 31 := by
        rw [hm12]
        norm_num [daysInMonth]
      omega

/-- Claim C3: the review time filter of line 238 — a Python string comparison of
the GitHub `"...Z"` timestamp against the bounds
`"start_dateT00:00:00+00:00"` and `"(end_date+1)T00:00:00+00:00"` — realizes
exactly the closed date interval `[start_date, end_date]`: a well-formed
event timestamp passes the filter iff its calendar date is between the start
and end dates inclusive, so any moment of the end date is included and any
moment of an earlier or later day is excluded. -/
theorem reviewInWindow_closed_interval (s e : Date) (t : Timestamp)
    (hs : s.Valid) (he : e.Valid) (ht : t.Valid) (he9 : (nextDay e).y < 10000) :
    reviewInWindow s e (isoZ t) = true ↔ (Date.le s t.date ∧ Date.le t.date e) := by
  obtain ⟨hsm1, hsm2, hsd1, hsd2, hsy1, hsy2⟩ := hs
  obtain ⟨htv, hth, hti, hts⟩ := ht
  obtain ⟨hnm, hnd, _⟩ := nextDay_fields e he
  obtain ⟨htm1, htm2, htd1, htd2, hty1, hty2⟩ := htv
  have h31t : t.date.d ≤ 31 := le_trans htd2 (daysInMonth_le_31 t.date.y t.date.m)
  have h31s : s.d ≤ 31 := le_trans hsd2 (daysInMonth_le_31 s.y s.m)
  unfold reviewInWindow start_datetime_iso_commits end_datetime_iso_commits
  rw [Bool.and_eq_true,
    pyStrLe_bound_event s t (by omega) (by omega) (by omega) (by omega) (by omega)
      (by omega) (by omega) (by omega) (by omega),
    pyStrLe_event_bound (nextDay e) t he9 hnm hnd (by omega) (by omega) (by omega)
      (by omega) (by omega) (by omega),
    date_lt_nextDay_iff t.date e ⟨htm1, htm2, htd1, htd2, hty1, hty2⟩ he]

/-- Witness for claim C3: the window `2024-01-01..2024-01-31`: the last second of
Jan 31 passes the string filter, by `reviewInWindow_closed_interval` applied
at that concrete window and timestamp. -/
theorem reviewInWindow_closed_interval_witness :
    reviewInWindow ⟨2024, 1, 1⟩ ⟨2024, 1, 31⟩ (isoZ ⟨⟨2024, 1, 31⟩, 23, 59, 59⟩) = true :=
  (reviewInWindow_closed_interval ⟨2024, 1, 1⟩ ⟨2024, 1, 31⟩ ⟨⟨2024, 1, 31⟩, 23, 59, 59⟩
      (by decide) (by decide) (by decide) (by decide)).mpr
    (by decide)

/-- A failing per-PR enrichment fetch yields an empty `pr_activity_details`
for that PR: both inner loops `break` at page 1 with nothing collected. -/
theorem collectPRActivityDetails_failed
    (fR : Nat → Nat → Option (List ReviewItem))
    (fC : Nat → Nat → Option (List ReviewCommentItem))
    (username : String) (s e : Date) (k fuel : Nat)
    (hR : fR k 1 = none) (hC : fC k 1 = none) :
    collectPRActivityDetails fR fC username s e k fuel = [] := by
  unfold collectPRActivityDetails
  have h1 : reviewsLoop (fR k) username s e fuel 1 [] = [] := by
    cases fuel with
    | zero => rfl
    | succ f =>
      rw [reviewsLoop, hR]
  rw [h1]
  cases fuel with
  | zero => rfl
  | succ f =>
    rw [reviewCommentsLoop, hC]

/-- When both enrichment fetches fail for PR `k`, the outer loop behaves as
if the items with number `k` were absent: that PR contributes nothing and
every other PR's entry is unchanged. -/
theorem reviewsPhaseLoop_skips_failed
    (fR : Nat → Nat → Option (List ReviewItem))
    (fC : Nat → Nat → Option (List ReviewCommentItem))
    (username : String) (s e : Date) (fuel k : Nat)
    (hR : fR k 1 = none) (hC : fC k 1 = none) :
    ∀ (items : List InvolvedPR) (processed : List Nat) (acc : List PREntry),
      reviewsPhaseLoop fR fC username s e fuel items processed acc
        = reviewsPhaseLoop fR fC username s e fuel
            (items.filter (fun it => it.number != k))
            (processed.filter (fun n => n != k)) acc := by
  have hmem : ∀ (j : Nat) (processed : List Nat), j ≠ k →
      (j ∈ processed.filter (fun n => n != k) ↔ j ∈ processed) := by
    intro j pr hj
    simp [List.mem_filter, hj]
  intro items
  induction items with
  | nil => intro processed acc; rfl
  | cons item items ih =>
    intro processed acc
    by_cases hk : item.number = k
    · have hfil : (item :: items).filter (fun it => it.number != k)
          = items.filter (fun it => it.number != k) := by
        simp [List.filter_cons, hk]
      rw [hfil, reviewsPhaseLoop]
      by_cases hp : item.number ∈ processed
      · rw [if_pos hp]
        exact ih processed acc
      · rw [if_neg hp]
        have hdet : collectPRActivityDetails fR fC username s e item.number fuel = [] := by
          rw [hk]
          exact collectPRActivityDetails_failed fR fC username s e k fuel hR hC
        rw [hdet]
        simp only [List.isEmpty_nil, if_true]
        have hproc : (processed ++ [item.number]).filter (fun n => n != k)
            = processed.filter (fun n => n != k) := by
          simp [List.filter_append, hk]
        rw [ih (processed ++ [item.number]) acc, hproc]
    · have hfil : (item :: items).filter (fun it => it.number != k)
          = item :: items.filter (fun it => it.number != k) := by
        simp [List.filter_cons, hk]
      rw [hfil, reviewsPhaseLoop, reviewsPhaseLoop]
      by_cases hp : item.number ∈ processed
      · rw [if_pos hp, if_pos ((hmem _ _ hk).mpr hp)]
        exact ih processed acc
      · rw [if_neg hp, if_neg (fun hin => hp ((hmem _ _ hk).mp hin))]
        have hproc : (processed ++ [item.number]).filter (fun n => n != k)
            = processed.filter (fun n => n != k) ++ [item.number] := by
          simp [List.filter_append, hk]
        rw [ih (processed ++ [item.number]) _, hproc]

/-- One unfolding of the commits page loop on a caught page-fetch failure:
it `break`s, returning the state built so far as a normal value. -/
theorem commitsPagesLoop_none_step (pf : Nat → Option (List CommitItem))
    (d : String → Option CommitDetail) (fuel page : Nat) (st : CommitsState)
    (h : pf page = none) :
    commitsPagesLoop pf d (fuel + 1) page st = st := by
  rw [commitsPagesLoop, h]

/-- One unfolding of the commits page loop on a successful page fetch. -/
theorem commitsPagesLoop_some_step (pf : Nat → Option (List CommitItem))
    (d : String → Option CommitDetail) (fuel page : Nat) (st : CommitsState)
    (data : List CommitItem) (h : pf page = some data) :
    commitsPagesLoop pf d (fuel + 1) page st
      = (if data.isEmpty then st
         else if data.length < 100 then data.foldl (processCommitItem d) st
         else commitsPagesLoop pf d fuel (page + 1)
           (data.foldl (processCommitItem d) st)) := by
  rw [commitsPagesLoop, h]

/-- Counterexample for claim C2: a failure fetching the top-level commits list is
not fatal and surfaces no error: with page 1 full and the page-2 fetch
failing, `fetch_contributor_activity`'s commits phase returns the same
ordinary value as a clean run whose page 2 is simply empty — a silently
truncated result with the 100 page-1 commits and no error indication, where
the claim requires the failure to surface as an error to the caller. -/
theorem commits_top_level_failure_silent :
    commitsPhase (fun p => if p = 1 then some examplePage else none)
        (fun _ => none) 5
      = commitsPhase (fun p => if p = 1 then some examplePage else some [])
        (fun _ => none) 5
    ∧ (commitsPhase (fun p => if p = 1 then some examplePage else none)
        (fun _ => none) 5).total_commits = 100 := by
  have hlen : examplePage.length = 100 := by simp [examplePage]
  have hemp : examplePage.isEmpty = false := by
    rw [List.isEmpty_eq_false_iff_exists_mem]
    exact ⟨⟨"0", "m", "h", "d", "0"⟩, by simp [examplePage]; exact ⟨0, by norm_num, rfl⟩⟩
  have hrun1 : commitsPagesLoop (fun p => if p = 1 then some examplePage else none)
      (fun _ => none) 5 1 ⟨0, [], []⟩
      = examplePage.foldl (processCommitItem (fun _ => none)) ⟨0, [], []⟩ := by
    rw [commitsPagesLoop_some_step _ _ _ _ _ examplePage rfl]
    rw [hemp, hlen]
    norm_num
    exact commitsPagesLoop_none_step _ _ 3 2 _ rfl
  have hrun2 : commitsPagesLoop (fun p => if p = 1 then some examplePage else some [])
      (fun _ => none) 5 1 ⟨0, [], []⟩
      = examplePage.foldl (processCommitItem (fun _ => none)) ⟨0, [], []⟩ := by
    rw [commitsPagesLoop_some_step _ _ _ _ _ examplePage rfl]
    rw [hemp, hlen]
    norm_num
    rw [commitsPagesLoop_some_step _ _ 3 2 _ [] rfl]
    simp
  constructor
  · unfold commitsPhase
    rw [hrun1, hrun2]
  · unfold commitsPhase
    rw [hrun1]
    simp only
    rw [foldl_processCommitItem_length]
    simp [hlen]

/-- The reviews pagination loop with a failing first fetch collects nothing
beyond its starting accumulator (the `break` of line 250). -/
theorem reviewsLoop_none (fetch : Nat → Option (List ReviewItem))
    (username : String) (s e : Date) (fuel : Nat) (acc : List PRActivityDetail)
    (h : fetch 1 = none) :
    reviewsLoop fetch username s e fuel 1 acc = acc := by
  cases fuel with
  | zero => rfl
  | succ f => rw [reviewsLoop, h]

/-- The review-comments pagination loop with a failing first fetch collects
nothing beyond its starting accumulator (the `break` of line 279). -/
theorem reviewCommentsLoop_none (fetch : Nat → Option (List ReviewCommentItem))
    (username : String) (e : Date) (fuel : Nat) (acc : List PRActivityDetail)
    (h : fetch 1 = none) :
    reviewCommentsLoop fetch username e fuel 1 acc = acc := by
  cases fuel with
  | zero => rfl
  | succ f => rw [reviewCommentsLoop, h]

/-- When only the reviews fetch for PR `k` fails, that PR's review
sub-category contributes nothing but its review-comments sub-category is
collected exactly as usual. -/
theorem collectPRActivityDetails_reviews_failed
    (fR : Nat → Nat → Option (List ReviewItem))
    (fC : Nat → Nat → Option (List ReviewCommentItem))
    (username : String) (s e : Date) (k fuel : Nat) (hR : fR k 1 = none) :
    collectPRActivityDetails fR fC username s e k fuel
      = reviewCommentsLoop (fC k) username e fuel 1 [] := by
  unfold collectPRActivityDetails
  rw [reviewsLoop_none (fR k) username s e fuel [] hR]

/-- When only the review-comments fetch for PR `k` fails, that PR's comments
sub-category contributes nothing but its reviews sub-category is collected
exactly as usual. -/
theorem collectPRActivityDetails_comments_failed
    (fR : Nat → Nat → Option (List ReviewItem))
    (fC : Nat → Nat → Option (List ReviewCommentItem))
    (username : String) (s e : Date) (k fuel : Nat) (hC : fC k 1 = none) :
    collectPRActivityDetails fR fC username s e k fuel
      = reviewsLoop (fR k) username s e fuel 1 [] := by
  unfold collectPRActivityDetails
  exact reviewCommentsLoop_none (fC k) username e fuel _ hC

/-- The outer loop's processing of PRs other than `k` does not depend on the
fetch behaviour at PR `k`: each iteration only consults the fetches at its
own PR number. -/
theorem reviewsPhaseLoop_local
    (fR fRa : Nat → Nat → Option (List ReviewItem))
    (fC fCa : Nat → Nat → Option (List ReviewCommentItem))
    (username : String) (s e : Date) (fuel k : Nat)
    (hR : ∀ p, p ≠ k → fR p = fRa p) (hC : ∀ p, p ≠ k → fC p = fCa p) :
    ∀ (items : List InvolvedPR) (processed : List Nat) (acc : List PREntry),
      (∀ it ∈ items, it.number ≠ k) →
      reviewsPhaseLoop fR fC username s e fuel items processed acc
        = reviewsPhaseLoop fRa fCa username s e fuel items processed acc := by
  intro items
  induction items with
  | nil => intro processed acc _; rfl
  | cons item items ih =>
    intro processed acc hall
    have hne : item.number ≠ k := hall item (List.mem_cons_self item items)
    have hcoll : collectPRActivityDetails fR fC username s e item.number fuel
        = collectPRActivityDetails fRa fCa username s e item.number fuel := by
      unfold collectPRActivityDetails
      rw [hR item.number hne, hC item.number hne]
    have hrest : ∀ it ∈ items, it.number ≠ k :=
      fun it hit => hall it (List.mem_cons_of_mem item hit)
    rw [reviewsPhaseLoop, reviewsPhaseLoop]
    by_cases hp : item.number ∈ processed
    · rw [if_pos hp, if_pos hp]
      exact ih processed acc hrest
    · rw [if_neg hp, if_neg hp, hcoll]
      exact ih _ _ hrest

/-- Claim C2 as amended: a failure of a per-PR enrichment sub-fetch (reviews
or comments for one PR) never aborts the whole aggregation — that PR's
contribution to that sub-category is skipped and processing continues: a
reviews failure leaves exactly the PR's review-comments activities, a
comments failure leaves exactly its review activities, every other PR is
processed unchanged, and a PR whose two sub-fetches both fail is dropped (a
failed per-commit detail fetch likewise contributes a zero-stats record) —
while a failure fetching a top-level list (a commits page, or a search page)
is likewise caught: it ends collection for that category and the partial
results gathered so far are returned to the caller as an ordinary value,
with no error surfaced. -/
theorem subfetch_failure_policy_amended :
    (∀ (d : String → Option CommitDetail) (st : CommitsState) (item : CommitItem),
        d item.url = none →
        processCommitItem d st item
          = { st with commits_list := st.commits_list
              ++ [⟨item.sha, item.message, item.html_url, item.date, 0, 0, []⟩] })
    ∧ (∀ (fR : Nat → Nat → Option (List ReviewItem))
        (fC : Nat → Nat → Option (List ReviewCommentItem))
        (username : String) (s e : Date) (k fuel : Nat),
        fR k 1 = none →
        collectPRActivityDetails fR fC username s e k fuel
          = reviewCommentsLoop (fC k) username e fuel 1 [])
    ∧ (∀ (fR : Nat → Nat → Option (List ReviewItem))
        (fC : Nat → Nat → Option (List ReviewCommentItem))
        (username : String) (s e : Date) (k fuel : Nat),
        fC k 1 = none →
        collectPRActivityDetails fR fC username s e k fuel
          = reviewsLoop (fR k) username s e fuel 1 [])
    ∧ (∀ (fR fRa : Nat → Nat → Option (List ReviewItem))
        (fC fCa : Nat → Nat → Option (List ReviewCommentItem))
        (username : String) (s e : Date) (fuel k : Nat),
        (∀ p, p ≠ k → fR p = fRa p) → (∀ p, p ≠ k → fC p = fCa p) →
        ∀ (items : List InvolvedPR) (processed : List Nat) (acc : List PREntry),
          (∀ it ∈ items, it.number ≠ k) →
          reviewsPhaseLoop fR fC username s e fuel items processed acc
            = reviewsPhaseLoop fRa fCa username s e fuel items processed acc)
    ∧ (∀ (fR : Nat → Nat → Option (List ReviewItem))
        (fC : Nat → Nat → Option (List ReviewCommentItem))
        (username : String) (s e : Date) (fuel k : Nat) (items : List InvolvedPR),
        fR k 1 = none → fC k 1 = none →
        reviews_and_review_comments fR fC username s e fuel items
          = reviews_and_review_comments fR fC username s e fuel
              (items.filter (fun it => it.number != k)))
    ∧ (∀ (pf : Nat → Option (List CommitItem)) (d : String → Option CommitDetail)
        (fuel page : Nat) (st : CommitsState),
        pf page = none → commitsPagesLoop pf d (fuel + 1) page st = st)
    ∧ (∀ (α : Type) (g : Nat → Option (List α)) (fuel page : Nat) (acc : List α)
        (req : List Nat),
        g page = none →
        searchPagesLoop g (fuel + 1) page acc req = (acc, req ++ [page], true)) := by
  refine ⟨?_, ?_, ?_, ?_, ?_, ?_, ?_⟩
  · intro d st item hd
    unfold processCommitItem
    rw [hd]
  · intro fR fC username s e k fuel hR
    exact collectPRActivityDetails_reviews_failed fR fC username s e k fuel hR
  · intro fR fC username s e k fuel hC
    exact collectPRActivityDetails_comments_failed fR fC username s e k fuel hC
  · intro fR fRa fC fCa username s e fuel k hR hC items processed acc hall
    exact reviewsPhaseLoop_local fR fRa fC fCa username s e fuel k hR hC
      items processed acc hall
  · intro fR fC username s e fuel k items hR hC
    unfold reviews_and_review_comments
    simpa using reviewsPhaseLoop_skips_failed fR fC username s e fuel k hR hC items [] []
  · intro pf d fuel page st h
    exact commitsPagesLoop_none_step pf d fuel page st h
  · intro α g fuel page acc req h
    exact searchPagesLoop_none g fuel page acc req h

/-- Witness for claim C2 as amended: the failure policy at concrete inputs —
a failing commit-detail fetch; PR 5 with only its reviews fetch failing
(keeping the comments sub-category), with only its comments fetch failing
(keeping the reviews sub-category), with fetch behaviour at PR 5 irrelevant
to the processing of PR 7, and with both fetches failing (PR dropped); a
failing commits page 1; and a failing search page 1. -/
theorem subfetch_failure_policy_amended_witness :
    processCommitItem (fun _ => none) ⟨0, [], []⟩ ⟨"s", "m", "h", "d", "u"⟩
      = { total_lines_changed := 0, unique_files := [],
          commits_list := [⟨"s", "m", "h", "d", 0, 0, []⟩] }
    ∧ collectPRActivityDetails (fun _ _ => none) (fun _ _ => some []) "alice"
        ⟨2024, 1, 1⟩ ⟨2024, 1, 31⟩ 5 3
      = reviewCommentsLoop (fun _ => some []) "alice" ⟨2024, 1, 31⟩ 3 1 []
    ∧ collectPRActivityDetails (fun _ _ => some []) (fun _ _ => none) "alice"
        ⟨2024, 1, 1⟩ ⟨2024, 1, 31⟩ 5 3
      = reviewsLoop (fun _ => some []) "alice" ⟨2024, 1, 1⟩ ⟨2024, 1, 31⟩ 3 1 []
    ∧ reviewsPhaseLoop (fun p _ => if p = 5 then none else some [])
        (fun p _ => if p = 5 then none else some []) "alice"
        ⟨2024, 1, 1⟩ ⟨2024, 1, 31⟩ 3 [⟨7, "t", "u", "b"⟩] [] []
      = reviewsPhaseLoop (fun _ _ => some []) (fun _ _ => some []) "alice"
        ⟨2024, 1, 1⟩ ⟨2024, 1, 31⟩ 3 [⟨7, "t", "u", "b"⟩] [] []
    ∧ reviews_and_review_comments (fun _ _ => none) (fun _ _ => none) "alice"
        ⟨2024, 1, 1⟩ ⟨2024, 1, 31⟩ 3 [⟨5, "t", "u", "b"⟩]
      = reviews_and_review_comments (fun _ _ => none) (fun _ _ => none) "alice"
        ⟨2024, 1, 1⟩ ⟨2024, 1, 31⟩ 3
        (([⟨5, "t", "u", "b"⟩] : List InvolvedPR).filter (fun it => it.number != 5))
    ∧ commitsPagesLoop (fun _ => none) (fun _ => none) 3 1 ⟨0, [], []⟩ = ⟨0, [], []⟩
    ∧ searchPagesLoop (fun _ => (none : Option (List Nat))) 3 1 [] [] = ([], [1], true) :=
  ⟨subfetch_failure_policy_amended.1 (fun _ => none) ⟨0, [], []⟩ ⟨"s", "m", "h", "d", "u"⟩ rfl,
   subfetch_failure_policy_amended.2.1 (fun _ _ => none) (fun _ _ => some []) "alice"
     ⟨2024, 1, 1⟩ ⟨2024, 1, 31⟩ 5 3 rfl,
   subfetch_failure_policy_amended.2.2.1 (fun _ _ => some []) (fun _ _ => none) "alice"
     ⟨2024, 1, 1⟩ ⟨2024, 1, 31⟩ 5 3 rfl,
   subfetch_failure_policy_amended.2.2.2.1 (fun p _ => if p = 5 then none else some [])
     (fun _ _ => some []) (fun p _ => if p = 5 then none else some []) (fun _ _ => some [])
     "alice" ⟨2024, 1, 1⟩ ⟨2024, 1, 31⟩ 3 5
     (fun p hp => by funext q; simp [hp]) (fun p hp => by funext q; simp [hp])
     [⟨7, "t", "u", "b"⟩] [] []
     (fun it hit => by
       have h7 : it = ⟨7, "t", "u", "b"⟩ := List.mem_singleton.mp hit
       rw [h7]
       decide),
   subfetch_failure_policy_amended.2.2.2.2.1 (fun _ _ => none) (fun _ _ => none) "alice"
     ⟨2024, 1, 1⟩ ⟨2024, 1, 31⟩ 3 5 [⟨5, "t", "u", "b"⟩] rfl rfl,
   subfetch_failure_policy_amended.2.2.2.2.2.1 (fun _ => none) (fun _ => none) 2 1
     ⟨0, [], []⟩ rfl,
   subfetch_failure_policy_amended.2.2.2.2.2.2 Nat (fun _ => none) 2 1 [] [] rfl⟩

/-- Counterexample for claim C9: not every date-window endpoint validates the
window: a request to `/contributor-activity/` with
`start_date = 2024-02-01 > end_date = 2024-01-01` is not rejected — the
outbound fetch runs and the endpoint answers 200 with the fetched value,
where the claim requires a 400 before any network call. -/
theorem contributor_activity_no_window_validation :
    Date.lt (⟨2024, 1, 1⟩ : Date) ⟨2024, 2, 1⟩
    ∧ get_contributor_activity_endpoint ⟨2024, 2, 1⟩ ⟨2024, 1, 1⟩
        (fun _ => PyResult.ok 7) = (Except.ok 7, true) := by
  constructor
  · show Date.lt ⟨2024, 1, 1⟩ ⟨2024, 2, 1⟩
    unfold Date.lt
    norm_num
  · rfl

/-- Claim C9 as amended: only the issues endpoint validates the window: for
`start ≤ end` it proceeds to the fetch, and for `start > end` it fails with
HTTP 400 before any outbound call; the contributor-activity endpoint performs
no ordering check and always proceeds to the outbound fetch, whatever the
window. -/
theorem endpoint_window_validation {ρ : Type} (startD endD : Date)
    (fetchIssues fetchActivity : Unit → PyResult ρ) :
    (Date.lt endD startD →
      list_repository_issues_endpoint startD endD fetchIssues
        = (Except.error 400, false))
    ∧ (¬ Date.lt endD startD →
      (list_repository_issues_endpoint startD endD fetchIssues).2 = true)
    ∧ (get_contributor_activity_endpoint startD endD fetchActivity).2 = true := by
  refine ⟨?_, ?_, ?_⟩
  · intro h
    unfold list_repository_issues_endpoint
    rw [if_pos h]
  · intro h
    unfold list_repository_issues_endpoint
    rw [if_neg h]
    cases fetchIssues () <;> rfl
  · unfold get_contributor_activity_endpoint
    cases fetchActivity () <;> rfl

/-- Witness for claim C9 as amended: `endpoint_window_validation` discharged at the window
`2024-02-01 > 2024-01-01` (rejected by the issues endpoint before fetching)
and at the window `2024-01-01 ≤ 2024-01-31` (accepted and fetched). -/
theorem endpoint_window_validation_witness :
    list_repository_issues_endpoint ⟨2024, 2, 1⟩ ⟨2024, 1, 1⟩
        (fun _ => PyResult.ok 7) = (Except.error 400, false)
    ∧ (list_repository_issues_endpoint ⟨2024, 1, 1⟩ ⟨2024, 1, 31⟩
        (fun _ => PyResult.ok 7)).2 = true :=
  ⟨(endpoint_window_validation ⟨2024, 2, 1⟩ ⟨2024, 1, 1⟩
      (fun _ => PyResult.ok 7) (fun _ => PyResult.ok 7)).1 (by decide),
   (endpoint_window_validation ⟨2024, 1, 1⟩ ⟨2024, 1, 31⟩
      (fun _ => PyResult.ok 7) (fun _ => PyResult.ok 7)).2.1 (by decide)⟩
